import Mathlib

/-!
# Hardware-capability and processor-topology detection (cinder/System.cpp)

A shallow embedding of `src/cinder/System.cpp`: the lazily cached capability
accessors of `cinder::System`, the configuration lookup `getSysCtlValue`, and the
per-logical-processor topology scan (`lockToLogicalProcessor`, `cpuid`,
`System::getNumCpus`).

Conventions of the embedding.

* The three compile-time configurations (`CINDER_COCOA`, `CINDER_MSW`,
  `CINDER_LINUX`) are a value of type `Target`; every function that the source
  guards with the preprocessor takes the target as an argument.
* The platform primitives (`sysctlbyname`, `Gestalt`, `GetSystemInfo`,
  `GetVersionEx`, the `cpuid` instruction, the acceptance of an affinity mask by
  `SetProcessAffinityMask`) are fields of a `Platform` value: the answers the
  platform gives during one accessor call.
* The mutable program state is a `State`: the singleton `sInstance`, the process
  affinity mask, and a counter of platform-primitive invocations (an
  instrumentation that no code reads).
* 32-bit registers are natural numbers holding the unsigned bit pattern;
  unsigned arithmetic that can wrap is reduced modulo `2 ^ 32`.
* A computation whose C++ behaviour is undefined (an index outside a fixed-size
  array) or that does not terminate yields `none` / `Result.undefined`.
-/

namespace Cinder

/-! ## Data model -/

/-- The compiler-predefined macros that the `CINDER_LINUX` branches test with
`#ifdef` (`true` when the macro is defined). -/
structure CompilerDefines where
  __SSE2__ : Bool
  __SSE3__ : Bool
  __SSE41__ : Bool
  __SSE42__ : Bool
  __x86_64__ : Bool
  deriving DecidableEq, Repr

/-- The compile-time configuration selected by the preprocessor. -/
inductive Target
  | cocoa
  | msw
  | linux (defs : CompilerDefines)
  deriving DecidableEq, Repr

/-- Modelled from the spec: the enumeration indexing `mCachedValues` is declared in
`cinder/System.h`, which is not among the sources; its members are the ten indices
that `System.cpp` uses (one cache cell per capability key of the spec). -/
inductive CacheType
  | HAS_SSE2
  | HAS_SSE3
  | HAS_SSE4_1
  | HAS_SSE4_2
  | HAS_X86_64
  | PHYSICAL_CPUS
  | LOGICAL_CPUS
  | OS_MAJOR
  | OS_MINOR
  | OS_BUGFIX
  deriving DecidableEq, Repr

/-- Modelled from the spec: the class declaration of `System` is in
`cinder/System.h`, which is not among the sources; the members are exactly those
that `System.cpp` reads and writes. `mCachedValues b = true` is the spec's
`Computed` cell, `false` is `Uncomputed`. -/
structure System where
  mCachedValues : CacheType → Bool
  mHasSSE2 : Bool
  mHasSSE3 : Bool
  mHasSSE4_1 : Bool
  mHasSSE4_2 : Bool
  mHasX86_64 : Bool
  mPhysicalCPUs : Int
  mLogicalCPUs : Int
  mOSMajorVersion : Int
  mOSMinorVersion : Int
  mOSBugFixVersion : Int
  mCPUID_EBX : Nat
  mCPUID_ECX : Nat
  mCPUID_EDX : Nat

/-- The four result registers written by `cpuidwrap` (`int CPUInfo[4]`), as
unsigned bit patterns. -/
structure CPUInfo where
  r0 : Nat
  r1 : Nat
  r2 : Nat
  r3 : Nat
  deriving DecidableEq, Repr

/-- The selectors passed to `Gestalt` by the OS-version accessors. -/
inductive GestaltSelector
  | gestaltSystemVersionMajor
  | gestaltSystemVersionMinor
  | gestaltSystemVersionBugFix
  deriving DecidableEq, Repr

/-- Outcome of one `Gestalt( selector, &response )` call: `noErr` with the response
stored through the pointer, or an error code, in which case the primitive may or
may not have stored something. -/
inductive GestaltResult
  | noErr (response : Int)
  | error (written : Option Int)
  deriving DecidableEq, Repr

/-- The answers of the platform primitives during one accessor call.

* `sysctlLen key`: `sysctlbyname( key, NULL, &len, NULL, 0 )`, `none` when it
  reports an error, otherwise the width `len` of the value;
* `sysctlVal key`: `sysctlbyname( key, &val, &len, NULL, 0 )`, `none` on error;
* `dwNumberOfProcessors`, `dwMinorVersion`: the `DWORD` members that `GetSystemInfo` and
  `GetVersionEx` fill in; `wServicePackMajor`: the `WORD` member of the latter;
* `cpuidInstr mask leaf`: the registers the `cpuid` instruction returns for `leaf`
  on the logical processor the process runs on under affinity mask `mask`;
* `acceptsMask m`: whether `SetProcessAffinityMask` accepts `m` (its return code is
  ignored by the source; a refused mask leaves the affinity unchanged);
* `uninit`: the indeterminate contents of the storage `new System` returns. -/
structure Platform where
  sysctlLen : String → Option Nat
  sysctlVal : String → Option Int
  Gestalt : GestaltSelector → GestaltResult
  dwNumberOfProcessors : Nat
  dwMinorVersion : Nat
  wServicePackMajor : Nat
  cpuidInstr : Nat → Nat → CPUInfo
  acceptsMask : Nat → Bool
  uninit : System

/-- The mutable state of the process: the singleton `System::sInstance` (`none` is
the null pointer), the process affinity mask, and the number of platform-primitive
invocations made so far. -/
structure State where
  sInstance : Option System
  processAffinityMask : Nat
  queries : Nat

/-- How a call ends: it returns a value, it throws `SystemExcFailedQuery`, or its
behaviour is undefined / it does not terminate. -/
inductive Result (α : Type) where
  | ret (v : α) (st : State)
  | threw (st : State)
  | undefined

/-- `typedef struct _LOGICALPROCESSORDATA`. The `int` members only ever hold
non-negative values (zero from `memset` or a masked bit field), so they are
natural numbers. -/
structure LOGICALPROCESSORDATA where
  nLargestStandardFunctionNumber : Nat
  nLargestExtendedFunctionNumber : Nat
  nLogicalProcessorCount : Nat
  nLocalApicId : Nat
  nCPUcore : Nat
  nProcessorId : Nat
  nApicIdCoreIdSize : Nat
  nNC : Nat
  nMNC : Nat
  nCPUCoresperProcessor : Nat
  nThreadsperCPUCore : Nat
  nProcId : Nat
  nCoreId : Nat
  CmpLegacy : Bool
  HTT : Bool
  deriving DecidableEq, Repr

/-- A record as `memset( ..., 0, ... )` leaves it. -/
def LOGICALPROCESSORDATA.zero : LOGICALPROCESSORDATA :=
  ⟨0, 0, 0, 0, 0, 0, 0, 0, 0, 0, 0, 0, 0, false, false⟩

/-- The modulus of 32-bit unsigned arithmetic (`unsigned int`, `DWORD`). -/
def UINT_MOD : Nat := 2 ^ 32

/-- The conversion of a `DWORD` to `int` in an assignment: the 32-bit pattern read as
two's complement (`0xFFFFFFFF` is `-1`). -/
def dwordToInt (d : Nat) : Int :=
  if d % UINT_MOD < 2 ^ 31 then ((d % UINT_MOD : Nat) : Int)
  else ((d % UINT_MOD : Nat) : Int) - (UINT_MOD : Int)

/-! ## `System::System` and `System::instance` -/

/-- Issue the `cpuid` instruction for `leaf` on the current logical processor
(`cpuidwrap( p, param )`); one platform-primitive invocation. -/
def cpuidwrap (pf : Platform) (leaf : Nat) (st : State) : CPUInfo × State :=
  (pf.cpuidInstr st.processAffinityMask leaf, { st with queries := st.queries + 1 })

/-- The constructor `System::System()`: every cache cell is cleared; on
`CINDER_MSW` leaf 1 is queried and EBX, ECX, EDX are kept. The other members stay
as the allocation left them. -/
def System.ctor (t : Target) (pf : Platform) (st : State) : System × State :=
  let s : System := { pf.uninit with mCachedValues := fun _ => false }
  match t with
  | .msw =>
    let (p, st1) := cpuidwrap pf 1 st
    ({ s with mCPUID_EBX := p.r1, mCPUID_ECX := p.r2, mCPUID_EDX := p.r3 }, st1)
  | _ => (s, st)

/-- The lazy singleton `System::instance()`: construct on first use. -/
def instance_ (t : Target) (pf : Platform) (st : State) : System × State :=
  match st.sInstance with
  | some s => (s, st)
  | none =>
    let (s, st1) := System.ctor t pf st
    (s, { st1 with sInstance := some s })

/-- Write back a member update made through `instance()->...`. -/
def State.store (st : State) (s : System) : State :=
  { st with sInstance := some s }

/-- The assignment `mCachedValues[b] = true`. -/
def System.mark (s : System) (b : CacheType) : System :=
  { s with mCachedValues := fun c => if c = b then true else s.mCachedValues c }

/-! ## `getSysCtlValue` (CINDER_COCOA) -/

/-- The template `getSysCtlValue<T>( key )`, with `sizeofT = sizeof(T)`:
`Except.error ()` is `throw SystemExcFailedQuery()`. The first `sysctlbyname` asks
for the width only; an error there returns `T(0)`. -/
def getSysCtlValue (sizeofT : Nat) (pf : Platform) (key : String) : Except Unit Int :=
  match pf.sysctlLen key with
  | none => .ok 0
  | some len =>
    if sizeofT ≠ len then .error ()
    else
      match pf.sysctlVal key with
      | none => .error ()
      | some val => .ok val

/-- Number of `sysctlbyname` invocations one `getSysCtlValue` call makes. -/
def getSysCtlValueQueries (sizeofT : Nat) (pf : Platform) (key : String) : Nat :=
  match pf.sysctlLen key with
  | none => 1
  | some len => if sizeofT ≠ len then 1 else 2

/-- The width of `int`. -/
def sizeofInt : Nat := 4

/-! ## `lockToLogicalProcessor` and `cpuid` (CINDER_MSW) -/

/-- The loop `while( n ) { pmm = pmm << 1; n--; }` on the `DWORD` `pmm`. -/
def pmmLoop : Nat → Nat → Nat
  | 0, pmm => pmm
  | n + 1, pmm => pmmLoop n ((pmm <<< 1) % UINT_MOD)

/-- `::GetProcessAffinityMask`: reads the mask; one primitive invocation. -/
def GetProcessAffinityMask (st : State) : Nat × State :=
  (st.processAffinityMask, { st with queries := st.queries + 1 })

/-- `::SetProcessAffinityMask`: the mask is replaced when the platform accepts it
and left as it was otherwise; one primitive invocation. -/
def SetProcessAffinityMask (pf : Platform) (m : Nat) (st : State) : State :=
  { st with
    processAffinityMask := if pf.acceptsMask m then m else st.processAffinityMask
    queries := st.queries + 1 }

/-- `void lockToLogicalProcessor( int n )`, for the non-negative `n` its callers
pass. -/
def lockToLogicalProcessor (pf : Platform) (n : Nat) (st : State) : State :=
  let (_, st1) := GetProcessAffinityMask st
  let pmm := pmmLoop n 1
  SetProcessAffinityMask pf pmm st1

/-- Body of the standard-leaf loop: only leaf 1 is interpreted. -/
def stdBody (i : Nat) (info : CPUInfo) (p : LOGICALPROCESSORDATA) : LOGICALPROCESSORDATA :=
  if i = 1 then
    { p with
      nLocalApicId := (info.r1 >>> 24) &&& 0xff
      HTT := ((info.r3 >>> 28) &&& 0x1) ≠ 0
      nLogicalProcessorCount := (info.r1 >>> 16) &&& 0x0FF }
  else p

/-- Body of the extended-leaf loop: only leaf `0x80000008` is interpreted. -/
def extBody (i : Nat) (info : CPUInfo) (p : LOGICALPROCESSORDATA) : LOGICALPROCESSORDATA :=
  if i = 0x80000008 then
    { p with
      nApicIdCoreIdSize := (info.r2 >>> 12) &&& 0xF
      nNC := info.r2 &&& 0x0FF }
  else p

/-- Run a leaf loop over the leaves `leaves` in order: each iteration issues
`cpuidwrap( CPUInfo, i )` and applies the body. -/
def leafLoop (pf : Platform) (body : Nat → CPUInfo → LOGICALPROCESSORDATA → LOGICALPROCESSORDATA) :
    List Nat → LOGICALPROCESSORDATA × State → LOGICALPROCESSORDATA × State
  | [], acc => acc
  | i :: is, (p, st) =>
    let (info, st1) := cpuidwrap pf i st
    leafLoop pf body is (body i info p, st1)

/-- The loop `for (j = nApicIdCoreIdSize-1; j>0; j--) nMNC = nMNC * 2;`. -/
def mncLoop : Nat → Nat → Nat
  | 0, nMNC => nMNC
  | j + 1, nMNC => mncLoop j (nMNC * 2)

/-- The loop `for (j = nApicIdCoreIdSize; j>1; j--) mask = (mask << 1) + 1;` on the
`unsigned int` `mask`. -/
def maskLoop : Nat → Nat → Nat
  | 0, mask => mask
  | 1, mask => mask
  | j + 2, mask => maskLoop (j + 1) (((mask <<< 1) + 1) % UINT_MOD)

/-- The core-id mask `mask` that `cpuid` builds from `nApicIdCoreIdSize`. -/
def coreIdMask (nApicIdCoreIdSize : Nat) : Nat :=
  if nApicIdCoreIdSize ≠ 0 then maskLoop nApicIdCoreIdSize 1 else 1

/-- The shift count `numbits` that `cpuid` uses for the package id. -/
def coreIdNumbits (nApicIdCoreIdSize : Nat) : Nat :=
  if nApicIdCoreIdSize ≠ 0 then nApicIdCoreIdSize else 1

/-- The part of `cpuid` after the leaf loops: `nMNC`, `nCPUCoresperProcessor`,
`nThreadsperCPUCore`, and the split of the APIC id into `nProcId` and `nCoreId`.
`~mask` is the 32-bit complement. -/
def cpuidDerive (p : LOGICALPROCESSORDATA) : LOGICALPROCESSORDATA :=
  let p1 := { p with
    nMNC := if p.nApicIdCoreIdSize ≠ 0 then mncLoop (p.nApicIdCoreIdSize - 1) 2 else p.nNC + 1 }
  let p2 := { p1 with nCPUCoresperProcessor := p1.nNC + 1 }
  let p3 := { p2 with
    nThreadsperCPUCore :=
      if p2.HTT = false then 1
      else if p2.CmpLegacy = true then 1
      else p2.nLogicalProcessorCount / p2.nCPUCoresperProcessor }
  let mask := coreIdMask p3.nApicIdCoreIdSize
  let numbits := coreIdNumbits p3.nApicIdCoreIdSize
  let p4 := { p3 with nProcId := p3.nLocalApicId &&& (UINT_MOD - 1 - mask) }
  let p5 := { p4 with nProcId := p4.nProcId >>> numbits }
  { p5 with nCoreId := p5.nLocalApicId &&& mask }

/-- The part of `cpuid` up to the end of the extended-leaf loop. A loop
`for (i = a; i <= N; ++i)` over `unsigned int` never ends when `N` is
`0xFFFFFFFF`; that case is `none`. -/
def cpuidQuery (pf : Platform) (whichlp : Nat) (p : LOGICALPROCESSORDATA) (st : State) :
    Option (LOGICALPROCESSORDATA × State) :=
  let st1 := lockToLogicalProcessor pf whichlp st
  let (info0, st2) := cpuidwrap pf 0 st1
  let p1 := { p with nLargestStandardFunctionNumber := info0.r0 % UINT_MOD }
  if p1.nLargestStandardFunctionNumber = UINT_MOD - 1 then none
  else
    let (p2, st3) :=
      leafLoop pf stdBody (List.range' 0 (p1.nLargestStandardFunctionNumber + 1)) (p1, st2)
    let (infoE, st4) := cpuidwrap pf 0x80000000 st3
    let p3 := { p2 with nLargestExtendedFunctionNumber := infoE.r0 % UINT_MOD }
    if p3.nLargestExtendedFunctionNumber = UINT_MOD - 1 then none
    else
      some (leafLoop pf extBody
        (List.range' 0x80000000 (p3.nLargestExtendedFunctionNumber + 1 - 0x80000000)) (p3, st4))

/-- `void cpuid( int whichlp, PLOGICALPROCESSORDATA p )`: the record `p` comes in
with its previous contents and is returned updated. -/
def cpuid (pf : Platform) (whichlp : Nat) (p : LOGICALPROCESSORDATA) (st : State) :
    Option (LOGICALPROCESSORDATA × State) :=
  match cpuidQuery pf whichlp p st with
  | none => none
  | some (q, st1) => some (cpuidDerive q, st1)

/-! ## The capability accessors -/

/-- One `getSysCtlValue<int>( key )` call made by an accessor, with its
`sysctlbyname` invocations counted. -/
def sysctlInt (pf : Platform) (key : String) (st : State) : Except Unit Int × State :=
  (getSysCtlValue sizeofInt pf key,
    { st with queries := st.queries + getSysCtlValueQueries sizeofInt pf key })

/-- `bool System::hasSse2()`. -/
def hasSse2 (t : Target) (pf : Platform) (st : State) : Result Bool :=
  let (s, st1) := instance_ t pf st
  if s.mCachedValues .HAS_SSE2 = false then
    match t with
    | .cocoa =>
      match sysctlInt pf "hw.optional.sse2" st1 with
      | (.error _, st2) => .threw st2
      | (.ok v, st2) =>
        let s1 := ({ s with mHasSSE2 := decide (v = 1) }).mark .HAS_SSE2
        .ret s1.mHasSSE2 (st2.store s1)
    | .msw =>
      let s1 := ({ s with mHasSSE2 := decide (s.mCPUID_EDX &&& 0x04000000 ≠ 0) }).mark .HAS_SSE2
      .ret s1.mHasSSE2 (st1.store s1)
    | .linux defs =>
      let s1 := ({ s with mHasSSE2 := defs.__SSE2__ }).mark .HAS_SSE2
      .ret s1.mHasSSE2 (st1.store s1)
  else .ret s.mHasSSE2 st1

/-- `bool System::hasSse3()`. -/
def hasSse3 (t : Target) (pf : Platform) (st : State) : Result Bool :=
  let (s, st1) := instance_ t pf st
  if s.mCachedValues .HAS_SSE3 = false then
    match t with
    | .cocoa =>
      match sysctlInt pf "hw.optional.sse3" st1 with
      | (.error _, st2) => .threw st2
      | (.ok v, st2) =>
        let s1 := ({ s with mHasSSE3 := decide (v = 1) }).mark .HAS_SSE3
        .ret s1.mHasSSE3 (st2.store s1)
    | .msw =>
      let s1 := ({ s with mHasSSE3 := decide (s.mCPUID_ECX &&& 0x00000001 ≠ 0) }).mark .HAS_SSE3
      .ret s1.mHasSSE3 (st1.store s1)
    | .linux defs =>
      let s1 := ({ s with mHasSSE3 := defs.__SSE3__ }).mark .HAS_SSE3
      .ret s1.mHasSSE3 (st1.store s1)
  else .ret s.mHasSSE3 st1

/-- `bool System::hasSse4_1()`. -/
def hasSse4_1 (t : Target) (pf : Platform) (st : State) : Result Bool :=
  let (s, st1) := instance_ t pf st
  if s.mCachedValues .HAS_SSE4_1 = false then
    match t with
    | .cocoa =>
      match sysctlInt pf "hw.optional.sse4_1" st1 with
      | (.error _, st2) => .threw st2
      | (.ok v, st2) =>
        let s1 := ({ s with mHasSSE4_1 := decide (v = 1) }).mark .HAS_SSE4_1
        .ret s1.mHasSSE4_1 (st2.store s1)
    | .msw =>
      let s1 := ({ s with mHasSSE4_1 := decide (s.mCPUID_ECX &&& (1 <<< 19) ≠ 0) }).mark .HAS_SSE4_1
      .ret s1.mHasSSE4_1 (st1.store s1)
    | .linux defs =>
      let s1 := ({ s with mHasSSE4_1 := defs.__SSE41__ }).mark .HAS_SSE4_1
      .ret s1.mHasSSE4_1 (st1.store s1)
  else .ret s.mHasSSE4_1 st1

/-- `bool System::hasSse4_2()`. -/
def hasSse4_2 (t : Target) (pf : Platform) (st : State) : Result Bool :=
  let (s, st1) := instance_ t pf st
  if s.mCachedValues .HAS_SSE4_2 = false then
    match t with
    | .cocoa =>
      match sysctlInt pf "hw.optional.sse4_2" st1 with
      | (.error _, st2) => .threw st2
      | (.ok v, st2) =>
        let s1 := ({ s with mHasSSE4_2 := decide (v = 1) }).mark .HAS_SSE4_2
        .ret s1.mHasSSE4_2 (st2.store s1)
    | .msw =>
      let s1 := ({ s with mHasSSE4_2 := decide (s.mCPUID_ECX &&& (1 <<< 20) ≠ 0) }).mark .HAS_SSE4_2
      .ret s1.mHasSSE4_2 (st1.store s1)
    | .linux defs =>
      let s1 := ({ s with mHasSSE4_2 := defs.__SSE42__ }).mark .HAS_SSE4_2
      .ret s1.mHasSSE4_2 (st1.store s1)
  else .ret s.mHasSSE4_2 st1

/-- `bool System::hasX86_64()`. -/
def hasX86_64 (t : Target) (pf : Platform) (st : State) : Result Bool :=
  let (s, st1) := instance_ t pf st
  if s.mCachedValues .HAS_X86_64 = false then
    match t with
    | .cocoa =>
      match sysctlInt pf "hw.optional.x86_64" st1 with
      | (.error _, st2) => .threw st2
      | (.ok v, st2) =>
        let s1 := ({ s with mHasX86_64 := decide (v = 1) }).mark .HAS_X86_64
        .ret s1.mHasX86_64 (st2.store s1)
    | .msw =>
      let s1 := ({ s with mHasX86_64 := decide (s.mCPUID_EDX &&& (1 <<< 29) ≠ 0) }).mark .HAS_X86_64
      .ret s1.mHasX86_64 (st1.store s1)
    | .linux defs =>
      let s1 := ({ s with mHasX86_64 := defs.__x86_64__ }).mark .HAS_X86_64
      .ret s1.mHasX86_64 (st1.store s1)
  else .ret s.mHasX86_64 st1

/-- `int System::getNumCores()`. On `CINDER_MSW` the value is
`sys.dwNumberOfProcessors` after `::GetSystemInfo( &sys )`. -/
def getNumCores (t : Target) (pf : Platform) (st : State) : Result Int :=
  let (s, st1) := instance_ t pf st
  if s.mCachedValues .LOGICAL_CPUS = false then
    match t with
    | .cocoa =>
      match sysctlInt pf "hw.logicalcpu" st1 with
      | (.error _, st2) => .threw st2
      | (.ok v, st2) =>
        let s1 := ({ s with mLogicalCPUs := v }).mark .LOGICAL_CPUS
        .ret s1.mLogicalCPUs (st2.store s1)
    | .msw =>
      let st2 := { st1 with queries := st1.queries + 1 }
      let s1 := ({ s with mLogicalCPUs := dwordToInt pf.dwNumberOfProcessors }).mark .LOGICAL_CPUS
      .ret s1.mLogicalCPUs (st2.store s1)
    | .linux _ =>
      let s1 := ({ s with mLogicalCPUs := 2 }).mark .LOGICAL_CPUS
      .ret s1.mLogicalCPUs (st1.store s1)
  else .ret s.mLogicalCPUs st1

/-- `MAX_NUMBER_OF_LOGICAL_PROCESSORS`. -/
def MAX_NUMBER_OF_LOGICAL_PROCESSORS : Nat := 96

/-- `MAX_NUMBER_OF_PHYSICAL_PROCESSORS`. -/
def MAX_NUMBER_OF_PHYSICAL_PROCESSORS : Nat := 8

/-- `MAX_NUMBER_OF_IOAPICS`. -/
def MAX_NUMBER_OF_IOAPICS : Nat := 16

/-- The loop `for( i < numCores ) cpuid( i, &LogicalProcessorMap[i] );` over the
indices `is`. An index outside `LogicalProcessorMap` is undefined behaviour. -/
def scanLoop (pf : Platform) :
    List Nat → List LOGICALPROCESSORDATA × State → Option (List LOGICALPROCESSORDATA × State)
  | [], acc => some acc
  | i :: is, (map, st) =>
    if i < map.length then
      match cpuid pf i (map.getD i LOGICALPROCESSORDATA.zero) st with
      | none => none
      | some (p, st1) => scanLoop pf is (map.set i p, st1)
    else none

/-- The loop `for( i < numCores ) PhysProcIds[LogicalProcessorMap[i].nProcId]++;`
over the indices `is`. An index outside `PhysProcIds` is undefined behaviour. -/
def tallyLoop (map : List LOGICALPROCESSORDATA) : List Nat → List Nat → Option (List Nat)
  | [], PhysProcIds => some PhysProcIds
  | i :: is, PhysProcIds =>
    let k := (map.getD i LOGICALPROCESSORDATA.zero).nProcId
    if i < map.length ∧ k < PhysProcIds.length then
      tallyLoop map is (PhysProcIds.set k (PhysProcIds.getD k 0 + 1))
    else none

/-- The loop `for( i < 24 ) if( PhysProcIds[i] ) mPhysicalCPUs++;` over the indices
`is`, from the running count `c`. -/
def countLoop (PhysProcIds : List Nat) : List Nat → Int → Int
  | [], c => c
  | i :: is, c => countLoop PhysProcIds is (if PhysProcIds.getD i 0 ≠ 0 then c + 1 else c)

/-- The two counting loops of `getNumCpus` on `CINDER_MSW`: tally the `nProcId` of
the first `numCores` records into the zeroed `PhysProcIds`, then count its non-zero
entries. -/
def countPhysProcIds (map : List LOGICALPROCESSORDATA) (numCores : Nat) : Option Int :=
  match tallyLoop map (List.range numCores)
      (List.replicate (MAX_NUMBER_OF_PHYSICAL_PROCESSORS + MAX_NUMBER_OF_IOAPICS) 0) with
  | none => none
  | some PhysProcIds =>
    some (countLoop PhysProcIds
      (List.range (MAX_NUMBER_OF_PHYSICAL_PROCESSORS + MAX_NUMBER_OF_IOAPICS)) 0)

/-- The `CINDER_MSW` body of `getNumCpus`, from the `memset`s to the final
`::SetProcessAffinityMask`: the result is the physical processor count and the
state, `none` when the behaviour is undefined. `numCores` is the result of
`getNumCores()`, `ebx` the member `mCPUID_EBX`. -/
def getNumCpusScan (pf : Platform) (numCores : Int) (ebx : Nat) (saved : Nat) (st : State) :
    Option (Int × State) :=
  let map0 := List.replicate MAX_NUMBER_OF_LOGICAL_PROCESSORS LOGICALPROCESSORDATA.zero
  match scanLoop pf (List.range numCores.toNat) (map0, st) with
  | none => none
  | some (map, st1) =>
    let st2 := lockToLogicalProcessor pf ((ebx >>> 24) &&& 0xFF) st1
    match countPhysProcIds map numCores.toNat with
    | none => none
    | some n => some (n, SetProcessAffinityMask pf saved st2)

/-- `int System::getNumCpus()`. -/
def getNumCpus (t : Target) (pf : Platform) (st : State) : Result Int :=
  let (s, st1) := instance_ t pf st
  if s.mCachedValues .PHYSICAL_CPUS = false then
    match t with
    | .cocoa =>
      match sysctlInt pf "hw.packages" st1 with
      | (.error _, st2) => .threw st2
      | (.ok v, st2) =>
        let s1 := ({ s with mPhysicalCPUs := v }).mark .PHYSICAL_CPUS
        .ret s1.mPhysicalCPUs (st2.store s1)
    | .msw =>
      let (saved, st2) := GetProcessAffinityMask st1
      match getNumCores .msw pf st2 with
      | .undefined => .undefined
      | .threw st3 => .threw st3
      | .ret numCores st3 =>
        let (s3, st4) := instance_ .msw pf st3
        match getNumCpusScan pf numCores s3.mCPUID_EBX saved st4 with
        | none => .undefined
        | some (n, st5) =>
          let s4 := ({ s3 with mPhysicalCPUs := n }).mark .PHYSICAL_CPUS
          .ret s4.mPhysicalCPUs (st5.store s4)
    | .linux _ =>
      let s1 := ({ s with mPhysicalCPUs := 1 }).mark .PHYSICAL_CPUS
      .ret s1.mPhysicalCPUs (st1.store s1)
  else .ret s.mPhysicalCPUs st1

/-- One `Gestalt( selector, &member )` call: the member after the call and whether
the call returned `noErr`. -/
def gestaltInto (pf : Platform) (sel : GestaltSelector) (member : Int) : Int × Bool :=
  match pf.Gestalt sel with
  | .noErr response => (response, true)
  | .error written => (written.getD member, false)

/-- `int System::getOsMajorVersion()`. The Windows branch is guarded by
`defined( CIDER_MSW )`, which no configuration defines, so on `CINDER_MSW` no
branch is compiled. -/
def getOsMajorVersion (t : Target) (pf : Platform) (st : State) : Result Int :=
  let (s, st1) := instance_ t pf st
  if s.mCachedValues .OS_MAJOR = false then
    match t with
    | .cocoa =>
      let (v, ok) := gestaltInto pf .gestaltSystemVersionMajor s.mOSMajorVersion
      let st2 := { st1 with queries := st1.queries + 1 }
      let s1 := { s with mOSMajorVersion := v }
      if ok = false then .threw (st2.store s1)
      else
        let s2 := s1.mark .OS_MAJOR
        .ret s2.mOSMajorVersion (st2.store s2)
    | .msw =>
      let s1 := s.mark .OS_MAJOR
      .ret s1.mOSMajorVersion (st1.store s1)
    | .linux _ =>
      let s1 := ({ s with mOSMajorVersion := 2 }).mark .OS_MAJOR
      .ret s1.mOSMajorVersion (st1.store s1)
  else .ret s.mOSMajorVersion st1

/-- `int System::getOsMinorVersion()`. The `CINDER_LINUX` branch is `return 26;`. -/
def getOsMinorVersion (t : Target) (pf : Platform) (st : State) : Result Int :=
  let (s, st1) := instance_ t pf st
  if s.mCachedValues .OS_MINOR = false then
    match t with
    | .cocoa =>
      let (v, ok) := gestaltInto pf .gestaltSystemVersionMinor s.mOSMinorVersion
      let st2 := { st1 with queries := st1.queries + 1 }
      let s1 := { s with mOSMinorVersion := v }
      if ok = false then .threw (st2.store s1)
      else
        let s2 := s1.mark .OS_MINOR
        .ret s2.mOSMinorVersion (st2.store s2)
    | .msw =>
      let st2 := { st1 with queries := st1.queries + 1 }
      let s1 := ({ s with mOSMinorVersion := dwordToInt pf.dwMinorVersion }).mark .OS_MINOR
      .ret s1.mOSMinorVersion (st2.store s1)
    | .linux _ => .ret 26 st1
  else .ret s.mOSMinorVersion st1

/-- `int System::getOsBugFixVersion()`. -/
def getOsBugFixVersion (t : Target) (pf : Platform) (st : State) : Result Int :=
  let (s, st1) := instance_ t pf st
  if s.mCachedValues .OS_BUGFIX = false then
    match t with
    | .cocoa =>
      let (v, ok) := gestaltInto pf .gestaltSystemVersionBugFix s.mOSBugFixVersion
      let st2 := { st1 with queries := st1.queries + 1 }
      let s1 := { s with mOSBugFixVersion := v }
      if ok = false then .threw (st2.store s1)
      else
        let s2 := s1.mark .OS_BUGFIX
        .ret s2.mOSBugFixVersion (st2.store s2)
    | .msw =>
      let st2 := { st1 with queries := st1.queries + 1 }
      let s1 := ({ s with mOSBugFixVersion := (pf.wServicePackMajor : Int) }).mark .OS_BUGFIX
      .ret s1.mOSBugFixVersion (st2.store s1)
    | .linux _ =>
      let s1 := ({ s with mOSBugFixVersion := 26 }).mark .OS_BUGFIX
      .ret s1.mOSBugFixVersion (st1.store s1)
  else .ret s.mOSBugFixVersion st1

/-! ## The accessors as one family -/

/-- The ten capability accessors. -/
inductive Accessor
  | hasSse2
  | hasSse3
  | hasSse4_1
  | hasSse4_2
  | hasX86_64
  | getNumCpus
  | getNumCores
  | getOsMajorVersion
  | getOsMinorVersion
  | getOsBugFixVersion
  deriving DecidableEq, Repr

/-- A value returned by an accessor: `bool` or `int`. -/
inductive Value
  | bool (b : Bool)
  | int (i : Int)
  deriving DecidableEq, Repr

/-- Retag the value a call returns. -/
def Result.map {α β : Type} (f : α → β) : Result α → Result β
  | .ret v st => .ret (f v) st
  | .threw st => .threw st
  | .undefined => .undefined

/-- The value a call returned, if it returned. -/
def Result.value? {α : Type} : Result α → Option α
  | .ret v _ => some v
  | _ => none

/-- The state a call left behind, if it returned or threw. -/
def Result.state? {α : Type} : Result α → Option State
  | .ret _ st => some st
  | .threw st => some st
  | .undefined => none

/-- Call accessor `a`. -/
def Accessor.call (a : Accessor) (t : Target) (pf : Platform) (st : State) : Result Value :=
  match a with
  | .hasSse2 => (Cinder.hasSse2 t pf st).map Value.bool
  | .hasSse3 => (Cinder.hasSse3 t pf st).map Value.bool
  | .hasSse4_1 => (Cinder.hasSse4_1 t pf st).map Value.bool
  | .hasSse4_2 => (Cinder.hasSse4_2 t pf st).map Value.bool
  | .hasX86_64 => (Cinder.hasX86_64 t pf st).map Value.bool
  | .getNumCpus => (Cinder.getNumCpus t pf st).map Value.int
  | .getNumCores => (Cinder.getNumCores t pf st).map Value.int
  | .getOsMajorVersion => (Cinder.getOsMajorVersion t pf st).map Value.int
  | .getOsMinorVersion => (Cinder.getOsMinorVersion t pf st).map Value.int
  | .getOsBugFixVersion => (Cinder.getOsBugFixVersion t pf st).map Value.int

/-- The cache cell of accessor `a`. -/
def Accessor.cell : Accessor → CacheType
  | .hasSse2 => .HAS_SSE2
  | .hasSse3 => .HAS_SSE3
  | .hasSse4_1 => .HAS_SSE4_1
  | .hasSse4_2 => .HAS_SSE4_2
  | .hasX86_64 => .HAS_X86_64
  | .getNumCpus => .PHYSICAL_CPUS
  | .getNumCores => .LOGICAL_CPUS
  | .getOsMajorVersion => .OS_MAJOR
  | .getOsMinorVersion => .OS_MINOR
  | .getOsBugFixVersion => .OS_BUGFIX

/-! ## Predicates used in the statements, and example inputs -/

/-- The value `cpuid` stores in `nLargestStandardFunctionNumber`: register 0 of leaf 0 on
the logical processor selected by `lockToLogicalProcessor( whichlp )`. -/
def largestStandard (pf : Platform) (whichlp : Nat) (st : State) : Nat :=
  (pf.cpuidInstr (lockToLogicalProcessor pf whichlp st).processAffinityMask 0).r0 % UINT_MOD

/-- The value `cpuid` stores in `nLargestExtendedFunctionNumber`: register 0 of leaf
`0x80000000` on the logical processor selected by `lockToLogicalProcessor( whichlp )`. -/
def largestExtended (pf : Platform) (whichlp : Nat) (st : State) : Nat :=
  (pf.cpuidInstr (lockToLogicalProcessor pf whichlp st).processAffinityMask 0x80000000).r0
    % UINT_MOD

/-- The `nProcId` values read by the tally loop at the indices `is`. -/
def procIdsAt (map : List LOGICALPROCESSORDATA) (is : List Nat) : List Nat :=
  is.map (fun i => (map.getD i LOGICALPROCESSORDATA.zero).nProcId)

/-- The cell of `a` is `Computed` in `st` with stored value `v`. -/
def Accessor.stored (a : Accessor) (st : State) (v : Value) : Prop :=
  ∃ s, st.sInstance = some s ∧ s.mCachedValues a.cell = true ∧
    v = (match a with
      | .hasSse2 => Value.bool s.mHasSSE2
      | .hasSse3 => Value.bool s.mHasSSE3
      | .hasSse4_1 => Value.bool s.mHasSSE4_1
      | .hasSse4_2 => Value.bool s.mHasSSE4_2
      | .hasX86_64 => Value.bool s.mHasX86_64
      | .getNumCpus => Value.int s.mPhysicalCPUs
      | .getNumCores => Value.int s.mLogicalCPUs
      | .getOsMajorVersion => Value.int s.mOSMajorVersion
      | .getOsMinorVersion => Value.int s.mOSMinorVersion
      | .getOsBugFixVersion => Value.int s.mOSBugFixVersion)

/-- The cell of `a` is `Uncomputed` in `st` (the instance exists, the flag is false). -/
def Accessor.uncomputed (a : Accessor) (st : State) : Prop :=
  ∃ s, st.sInstance = some s ∧ s.mCachedValues a.cell = false

/-- The cell of `a` is `Computed` in `st`. -/
def Accessor.computed (a : Accessor) (st : State) : Prop :=
  ∃ s, st.sInstance = some s ∧ s.mCachedValues a.cell = true

/-- The platform query behind accessor `a` in the `CINDER_COCOA` configuration (the
only one in which a query can throw): the value the accessor obtains from it, or
`Except.error ()` when it throws `SystemExcFailedQuery`. -/
def Accessor.cocoaQuery (a : Accessor) (pf : Platform) : Except Unit Value :=
  match a with
  | .hasSse2 =>
    (getSysCtlValue sizeofInt pf "hw.optional.sse2").map (fun v => .bool (decide (v = 1)))
  | .hasSse3 =>
    (getSysCtlValue sizeofInt pf "hw.optional.sse3").map (fun v => .bool (decide (v = 1)))
  | .hasSse4_1 =>
    (getSysCtlValue sizeofInt pf "hw.optional.sse4_1").map (fun v => .bool (decide (v = 1)))
  | .hasSse4_2 =>
    (getSysCtlValue sizeofInt pf "hw.optional.sse4_2").map (fun v => .bool (decide (v = 1)))
  | .hasX86_64 =>
    (getSysCtlValue sizeofInt pf "hw.optional.x86_64").map (fun v => .bool (decide (v = 1)))
  | .getNumCpus => (getSysCtlValue sizeofInt pf "hw.packages").map Value.int
  | .getNumCores => (getSysCtlValue sizeofInt pf "hw.logicalcpu").map Value.int
  | .getOsMajorVersion =>
    match pf.Gestalt .gestaltSystemVersionMajor with
    | .noErr response => .ok (.int response)
    | .error _ => .error ()
  | .getOsMinorVersion =>
    match pf.Gestalt .gestaltSystemVersionMinor with
    | .noErr response => .ok (.int response)
    | .error _ => .error ()
  | .getOsBugFixVersion =>
    match pf.Gestalt .gestaltSystemVersionBugFix with
    | .noErr response => .ok (.int response)
    | .error _ => .error ()

/-- The call `r` returned `v` and left a state satisfying `P`. -/
def Result.returnsWith {α : Type} (r : Result α) (v : α) (P : State → Prop) : Prop :=
  match r with
  | .ret w st => w = v ∧ P st
  | _ => False

/-- Example contents of freshly allocated `System` storage: all zero. -/
def exampleSystem : System :=
  ⟨fun _ => false, false, false, false, false, false, 0, 0, 0, 0, 0, 0, 0, 0⟩

/-- Example `cpuid` answers of a processor that supports leaves 0..1 and
`0x80000000..0x80000008`: APIC id `apicId`, hyper-threading flag set, 4 siblings,
core-id width `width`, `nc` cores minus one; bit 26 of EDX (SSE2) set. -/
def topologyLeaves (apicId width nc : Nat) (leaf : Nat) : CPUInfo :=
  if leaf = 0 then ⟨1, 0, 0, 0⟩
  else if leaf = 1 then ⟨0, (apicId <<< 24) ||| (4 <<< 16), 0, (1 <<< 28) ||| (1 <<< 26)⟩
  else if leaf = 0x80000000 then ⟨0x80000008, 0, 0, 0⟩
  else if leaf = 0x80000008 then ⟨0, 0, (width <<< 12) ||| nc, 0⟩
  else ⟨0, 0, 0, 0⟩

/-- Example `cpuid` answers of a processor without extended leaves: only leaves 0..1,
APIC id `apicId`, every feature bit clear. -/
def legacyLeaves (apicId : Nat) (leaf : Nat) : CPUInfo :=
  if leaf = 0 then ⟨1, 0, 0, 0⟩
  else if leaf = 1 then ⟨0, apicId <<< 24, 0, 0⟩
  else ⟨0, 0, 0, 0⟩

/-- Example platform: every `sysctlbyname` succeeds with a 4-byte value 1, `Gestalt`
answers 10, `cores` logical processors, every affinity mask accepted. -/
def examplePlatform (cpuidInstr : Nat → Nat → CPUInfo) (cores : Nat) : Platform :=
  { sysctlLen := fun _ => some 4
    sysctlVal := fun _ => some 1
    Gestalt := fun _ => .noErr 10
    dwNumberOfProcessors := cores
    dwMinorVersion := 1
    wServicePackMajor := 2
    cpuidInstr := cpuidInstr
    acceptsMask := fun _ => true
    uninit := exampleSystem }

/-- The state before the first accessor call: no instance yet, affinity `mask`. -/
def freshState (mask : Nat) : State := ⟨none, mask, 0⟩

/-- A platform whose `sysctlbyname` reports a value of width 8 for every key. -/
def mismatchPlatform : Platform :=
  { examplePlatform (fun _ => legacyLeaves 0) 1 with sysctlLen := fun _ => some 8 }

/-- Four logical processors in one package: under affinity mask `2 ^ i` the `cpuid`
instruction reports APIC id `i`, two core-id bits, hyper-threading, four siblings. -/
def fourUnits : Platform :=
  examplePlatform
    (fun m => topologyLeaves (if m = 1 then 0 else if m = 2 then 1 else if m = 4 then 2 else 3)
      2 1) 4

/-- The state after `hasSse2()` succeeded on the example platform. -/
def exampleComputed : State :=
  ⟨some (({ exampleSystem with mHasSSE2 := true }).mark .HAS_SSE2), 1, 2⟩

/-- Example `cpuid` answers of a processor without extended leaves whose leaf 1 sets
the hyper-threading flag (bit 28 of EDX) and reports a logical processor count of 0. -/
def zeroCountLeaves (leaf : Nat) : CPUInfo :=
  if leaf = 0 then ⟨1, 0, 0, 0⟩
  else if leaf = 1 then ⟨0, 0, 0, 1 <<< 28⟩
  else ⟨0, 0, 0, 0⟩

/-- A platform whose `Gestalt` reports an error for every selector after storing 7
through the response pointer. -/
def gestaltErrorPlatform : Platform :=
  { examplePlatform (fun _ => legacyLeaves 0) 1 with Gestalt := fun _ => .error (some 7) }

/-- The logical-unit count that `getNumCpus` obtains from `getNumCores()` on
`CINDER_MSW`: the cached `mLogicalCPUs` when its cell is `Computed`, otherwise
`dwNumberOfProcessors` converted to `int`. -/
def scanCount (pf : Platform) (st : State) : Int :=
  if (instance_ .msw pf st).1.mCachedValues .LOGICAL_CPUS = false then
    dwordToInt pf.dwNumberOfProcessors
  else (instance_ .msw pf st).1.mLogicalCPUs

/-- Every logical processor of the platform answers leaves 0 and `0x80000000` with a
largest function number other than `0xFFFFFFFF`, so that the two leaf loops of `cpuid`
terminate. -/
def leafLoopsTerminate (pf : Platform) : Prop :=
  ∀ m, (pf.cpuidInstr m 0).r0 % UINT_MOD ≠ UINT_MOD - 1 ∧
    (pf.cpuidInstr m 0x80000000).r0 % UINT_MOD ≠ UINT_MOD - 1

/-- Every record that `cpuid` can produce on the platform from a zeroed record has a
package id that is an index of `PhysProcIds` (below 24). -/
def packageIdsInTable (pf : Platform) : Prop :=
  ∀ (i : Nat) (st st1 : State) (p : LOGICALPROCESSORDATA),
    cpuid pf i LOGICALPROCESSORDATA.zero st = some (p, st1) →
      p.nProcId < MAX_NUMBER_OF_PHYSICAL_PROCESSORS + MAX_NUMBER_OF_IOAPICS

/-- The four-unit platform, except that it refuses the affinity mask 15. -/
def refusingPlatform : Platform :=
  { fourUnits with acceptsMask := fun m => decide (m ≠ 15) }

/-! ## Supporting lemmas -/

/-! ### Closed forms of the loops -/

/-- The doubling loop multiplies by a power of two. -/
theorem mncLoop_eq (j m : Nat) : mncLoop j m = m * 2 ^ j := by
  induction j generalizing m with
  | zero => simp [mncLoop]
  | succ j ih => rw [mncLoop, ih, pow_succ]; ring

/-- Starting from the all-ones mask of `k` bits, `j` more iterations give the all-ones
mask of `k + j` bits, as long as it fits in 32 bits. -/
theorem maskLoop_eq (j k : Nat) (h : k + j ≤ 32) :
    maskLoop (j + 1) (2 ^ k - 1) = 2 ^ (k + j) - 1 := by
  induction j generalizing k with
  | zero => simp [maskLoop]
  | succ j ih =>
    have hk : k + 1 ≤ 32 := by omega
    have hpos : 0 < 2 ^ k := Nat.two_pow_pos _
    have hlt : 2 ^ (k + 1) ≤ 2 ^ 32 := Nat.pow_le_pow_right (by norm_num) hk
    have hstep : (((2 ^ k - 1) <<< 1) + 1) % UINT_MOD = 2 ^ (k + 1) - 1 := by
      have h1 : ((2 ^ k - 1) <<< 1) + 1 = 2 ^ (k + 1) - 1 := by
        rw [Nat.shiftLeft_eq, pow_succ]; omega
      rw [h1]
      apply Nat.mod_eq_of_lt
      unfold UINT_MOD
      omega
    rw [maskLoop, hstep, ih (k + 1) (by omega)]
    congr 2
    omega

/-- The mask built by `cpuid`: one bit for width 0, the low `w` bits otherwise. -/
theorem coreIdMask_eq (w : Nat) (h : w ≤ 32) :
    coreIdMask w = if w = 0 then 1 else 2 ^ w - 1 := by
  unfold coreIdMask
  by_cases hw : w = 0
  · simp [hw]
  · obtain ⟨j, rfl⟩ : ∃ j, w = j + 1 := ⟨w - 1, by omega⟩
    have := maskLoop_eq j 1 (by omega)
    simp only [pow_one, Nat.reduceSub] at this
    simp [this, Nat.add_comm]

/-- The shifting loop of `lockToLogicalProcessor` multiplies by `2 ^ n` modulo `2 ^ 32`. -/
theorem pmmLoop_eq (n m : Nat) (hm : m < UINT_MOD) : pmmLoop n m = (m * 2 ^ n) % UINT_MOD := by
  induction n generalizing m with
  | zero => simp [pmmLoop, Nat.mod_eq_of_lt hm]
  | succ n ih =>
    rw [pmmLoop, ih _ (Nat.mod_lt _ (by unfold UINT_MOD; norm_num)), Nat.shiftLeft_eq, pow_one,
      Nat.mod_mul_mod, pow_succ]
    congr 1
    ring

/-- For an index below 32 the loop builds the single-bit mask. -/
theorem pmmLoop_one (n : Nat) (hn : n < 32) : pmmLoop n 1 = 2 ^ n := by
  rw [pmmLoop_eq n 1 (by unfold UINT_MOD; norm_num), one_mul]
  apply Nat.mod_eq_of_lt
  exact Nat.pow_lt_pow_right (by norm_num) hn

/-! ### Bit-level facts -/

/-- Clearing the low `w` bits before shifting right by `w` changes nothing. -/
theorem and_not_low_shiftRight (a w : Nat) (ha : a < 2 ^ 32) (hw : w ≤ 32) :
    (a &&& (UINT_MOD - 1 - (2 ^ w - 1))) >>> w = a >>> w := by
  apply Nat.eq_of_testBit_eq
  intro i
  have hpos : 0 < 2 ^ w := Nat.two_pow_pos _
  have hle : 2 ^ w ≤ 2 ^ 32 := Nat.pow_le_pow_right (by norm_num) hw
  have hx : 2 ^ w - 1 < 2 ^ 32 := by omega
  have e : UINT_MOD - 1 - (2 ^ w - 1) = 2 ^ 32 - ((2 ^ w - 1) + 1) := by
    unfold UINT_MOD; omega
  rw [Nat.testBit_shiftRight, Nat.testBit_shiftRight, Nat.testBit_and, e,
    Nat.testBit_two_pow_sub_succ hx, Nat.testBit_two_pow_sub_one]
  by_cases hi : w + i < 32
  · simp [hi]
  · have : a.testBit (w + i) = false := by
      apply Nat.testBit_lt_two_pow
      calc a < 2 ^ 32 := ha
        _ ≤ 2 ^ (w + i) := Nat.pow_le_pow_right (by norm_num) (by omega)
    simp [this]

/-- The test `x & 2^i != 0` reads bit `i`. -/
theorem and_two_pow_ne_zero (x i : Nat) : decide (x &&& 2 ^ i ≠ 0) = x.testBit i := by
  rw [Nat.and_two_pow]
  cases x.testBit i <;> simp

/-- A masked value is at most the mask. -/
theorem and_le_mask (x m : Nat) : x &&& m ≤ m := Nat.and_le_right

/-! ### The leaf loops of `cpuid` -/

/-- A property kept by the body at every leaf of the list is kept by the loop. -/
theorem leafLoop_inv (pf : Platform)
    (body : Nat → CPUInfo → LOGICALPROCESSORDATA → LOGICALPROCESSORDATA)
    (P : LOGICALPROCESSORDATA → Prop) (is : List Nat)
    (hbody : ∀ i ∈ is, ∀ info p, P p → P (body i info p))
    (p : LOGICALPROCESSORDATA) (st : State) (h : P p) :
    P (leafLoop pf body is (p, st)).1 := by
  induction is generalizing p st with
  | nil => simpa [leafLoop] using h
  | cons i is ih =>
    simp only [leafLoop]
    apply ih
    · intro j hj; exact hbody j (List.mem_cons_of_mem _ hj)
    · exact hbody i (List.mem_cons_self _ _) _ _ h

/-- A leaf loop does not touch the affinity mask. -/
theorem leafLoop_mask (pf : Platform)
    (body : Nat → CPUInfo → LOGICALPROCESSORDATA → LOGICALPROCESSORDATA) (is : List Nat)
    (p : LOGICALPROCESSORDATA) (st : State) :
    (leafLoop pf body is (p, st)).2.processAffinityMask = st.processAffinityMask := by
  induction is generalizing p st with
  | nil => rfl
  | cons i is ih => simp only [leafLoop]; rw [ih]; rfl

/-- The query part of `cpuid` returns unless a largest function number is `0xFFFFFFFF`. -/
theorem cpuidQuery_returns (pf : Platform) (whichlp : Nat) (p : LOGICALPROCESSORDATA)
    (st : State) (hs : largestStandard pf whichlp st ≠ UINT_MOD - 1)
    (he : largestExtended pf whichlp st ≠ UINT_MOD - 1) :
    ∃ r, cpuidQuery pf whichlp p st = some r := by
  unfold largestStandard at hs
  unfold largestExtended at he
  unfold cpuidQuery
  simp only [cpuidwrap]
  rw [if_neg hs]
  simp only [leafLoop_mask]
  rw [if_neg he]
  exact ⟨_, rfl⟩

/-- A property kept by every assignment of the query part holds of its result. -/
theorem cpuidQuery_inv (pf : Platform) (whichlp : Nat) (p q : LOGICALPROCESSORDATA)
    (st st1 : State) (P : LOGICALPROCESSORDATA → Prop)
    (h0 : ∀ r v, P r → P { r with nLargestStandardFunctionNumber := v })
    (h1 : ∀ r v, P r → P { r with nLargestExtendedFunctionNumber := v })
    (h2 : ∀ i info r, P r → P (stdBody i info r))
    (h3 : ∀ i info r, i ≤ largestExtended pf whichlp st → P r → P (extBody i info r))
    (hp : P p) (h : cpuidQuery pf whichlp p st = some (q, st1)) : P q := by
  unfold cpuidQuery at h
  simp only [cpuidwrap] at h
  split at h
  · exact absurd h (by simp)
  · simp only [leafLoop_mask] at h
    split at h
    · exact absurd h (by simp)
    · simp only [Option.some.injEq] at h
      have := congrArg Prod.fst h
      simp only at this
      rw [← this]
      apply leafLoop_inv
      · intro i hi info r hr
        apply h3 i info r _ hr
        rw [List.mem_range'_1] at hi
        unfold largestExtended
        omega
      · apply h1
        apply leafLoop_inv
        · intro i _ info r hr; exact h2 i info r hr
        · exact h0 _ _ hp

/-- The standard-leaf body does not touch the core-id width nor `nNC`. -/
theorem stdBody_width (i : Nat) (info : CPUInfo) (r : LOGICALPROCESSORDATA) :
    (stdBody i info r).nApicIdCoreIdSize = r.nApicIdCoreIdSize ∧
      (stdBody i info r).nNC = r.nNC := by
  unfold stdBody; split <;> exact ⟨rfl, rfl⟩

/-- The core-id width stays within 0..15 and `nNC` within 0..255. -/
theorem cpuidQuery_width (pf : Platform) (whichlp : Nat) (p q : LOGICALPROCESSORDATA)
    (st st1 : State) (hw : p.nApicIdCoreIdSize ≤ 15) (hn : p.nNC ≤ 255)
    (h : cpuidQuery pf whichlp p st = some (q, st1)) :
    q.nApicIdCoreIdSize ≤ 15 ∧ q.nNC ≤ 255 := by
  refine cpuidQuery_inv pf whichlp p q st st1
    (fun r => r.nApicIdCoreIdSize ≤ 15 ∧ r.nNC ≤ 255) ?_ ?_ ?_ ?_ ⟨hw, hn⟩ h
  · intro r v hr; exact hr
  · intro r v hr; exact hr
  · intro i info r hr
    have := stdBody_width i info r
    simp only [this.1, this.2]; exact hr
  · intro i info r _ hr
    unfold extBody
    split
    · exact ⟨and_le_mask _ _, and_le_mask _ _⟩
    · exact hr

/-- The core-id width stays within 0..15. -/
theorem cpuidQuery_widthOnly (pf : Platform) (whichlp : Nat) (p q : LOGICALPROCESSORDATA)
    (st st1 : State) (hw : p.nApicIdCoreIdSize ≤ 15)
    (h : cpuidQuery pf whichlp p st = some (q, st1)) : q.nApicIdCoreIdSize ≤ 15 := by
  refine cpuidQuery_inv pf whichlp p q st st1 (fun r => r.nApicIdCoreIdSize ≤ 15)
    ?_ ?_ ?_ ?_ hw h
  · intro r v hr; exact hr
  · intro r v hr; exact hr
  · intro i info r hr
    have := stdBody_width i info r
    simp only [this.1]; exact hr
  · intro i info r _ hr
    unfold extBody
    split
    · exact and_le_mask _ _
    · exact hr

/-- The APIC id stays within 0..255. -/
theorem cpuidQuery_apic (pf : Platform) (whichlp : Nat) (p q : LOGICALPROCESSORDATA)
    (st st1 : State) (ha : p.nLocalApicId ≤ 255)
    (h : cpuidQuery pf whichlp p st = some (q, st1)) : q.nLocalApicId ≤ 255 := by
  refine cpuidQuery_inv pf whichlp p q st st1 (fun r => r.nLocalApicId ≤ 255) ?_ ?_ ?_ ?_ ha h
  · intro r v hr; exact hr
  · intro r v hr; exact hr
  · intro i info r hr
    unfold stdBody
    split
    · exact and_le_mask _ _
    · exact hr
  · intro i info r _ hr
    unfold extBody
    split <;> exact hr

/-- When leaf `0x80000008` is not supported the width and `nNC` keep their values. -/
theorem cpuidQuery_unsupported (pf : Platform) (whichlp : Nat) (p q : LOGICALPROCESSORDATA)
    (st st1 : State) (hu : largestExtended pf whichlp st < 0x80000008)
    (h : cpuidQuery pf whichlp p st = some (q, st1)) :
    q.nApicIdCoreIdSize = p.nApicIdCoreIdSize ∧ q.nNC = p.nNC := by
  refine cpuidQuery_inv pf whichlp p q st st1
    (fun r => r.nApicIdCoreIdSize = p.nApicIdCoreIdSize ∧ r.nNC = p.nNC) ?_ ?_ ?_ ?_
    ⟨rfl, rfl⟩ h
  · intro r v hr; exact hr
  · intro r v hr; exact hr
  · intro i info r hr
    have := stdBody_width i info r
    simp only [this.1, this.2]; exact hr
  · intro i info r hi hr
    unfold extBody
    rw [if_neg (by omega)]
    exact hr

/-- `cpuid` returns unless a largest function number is `0xFFFFFFFF`. -/
theorem cpuid_returns (pf : Platform) (whichlp : Nat) (p : LOGICALPROCESSORDATA)
    (st : State) (hs : largestStandard pf whichlp st ≠ UINT_MOD - 1)
    (he : largestExtended pf whichlp st ≠ UINT_MOD - 1) :
    ∃ q st1, cpuidQuery pf whichlp p st = some (q, st1) ∧
      cpuid pf whichlp p st = some (cpuidDerive q, st1) := by
  obtain ⟨⟨q, st1⟩, hr⟩ := cpuidQuery_returns pf whichlp p st hs he
  exact ⟨q, st1, hr, by simp [cpuid, hr]⟩

/-! ### The derivation part of `cpuid` -/

/-- The derivation part leaves the extracted fields alone. -/
theorem cpuidDerive_fields (q : LOGICALPROCESSORDATA) :
    (cpuidDerive q).nApicIdCoreIdSize = q.nApicIdCoreIdSize ∧
    (cpuidDerive q).nLocalApicId = q.nLocalApicId ∧ (cpuidDerive q).nNC = q.nNC :=
  ⟨rfl, rfl, rfl⟩

/-- The value of `nMNC` after the derivation part. -/
theorem cpuidDerive_nMNC (q : LOGICALPROCESSORDATA) :
    (cpuidDerive q).nMNC =
      if q.nApicIdCoreIdSize ≠ 0 then 2 ^ q.nApicIdCoreIdSize else q.nNC + 1 := by
  unfold cpuidDerive
  simp only
  by_cases hw : q.nApicIdCoreIdSize = 0
  · simp [hw]
  · obtain ⟨j, hj⟩ : ∃ j, q.nApicIdCoreIdSize = j + 1 := ⟨q.nApicIdCoreIdSize - 1, by omega⟩
    simp [hj, mncLoop_eq, pow_succ, Nat.mul_comm]

/-- The value of `nCoreId` after the derivation part. -/
theorem cpuidDerive_nCoreId (q : LOGICALPROCESSORDATA) :
    (cpuidDerive q).nCoreId = q.nLocalApicId &&& coreIdMask q.nApicIdCoreIdSize := rfl

/-- The value of `nProcId` after the derivation part. -/
theorem cpuidDerive_nProcId (q : LOGICALPROCESSORDATA) (ha : q.nLocalApicId ≤ 255)
    (hw : q.nApicIdCoreIdSize ≤ 15) :
    (cpuidDerive q).nProcId =
      q.nLocalApicId >>> (if q.nApicIdCoreIdSize = 0 then 1 else q.nApicIdCoreIdSize) := by
  have hlt : q.nLocalApicId < 2 ^ 32 := by omega
  show (q.nLocalApicId &&& (UINT_MOD - 1 - coreIdMask q.nApicIdCoreIdSize)) >>>
      coreIdNumbits q.nApicIdCoreIdSize = _
  rw [coreIdMask_eq _ (by omega)]
  unfold coreIdNumbits
  by_cases h0 : q.nApicIdCoreIdSize = 0
  · simp only [h0, if_true, ne_eq, not_true_eq_false, if_false]
    exact and_not_low_shiftRight q.nLocalApicId 1 hlt (by omega)
  · simp only [h0, if_false, ne_eq, not_false_eq_true, if_true]
    exact and_not_low_shiftRight q.nLocalApicId _ hlt (by omega)

/-! ### The counting loops of `getNumCpus` -/

/-- Reading an array after one in-bounds write. -/
theorem getD_set_nat (l : List Nat) (k i v : Nat) (h : k < l.length) :
    (l.set k v).getD i 0 = if i = k then v else l.getD i 0 := by
  simp [List.getD_eq_getElem?_getD, List.getElem?_set]
  split
  · subst_vars; simp [h]
  · rename_i hne
    simp [Ne.symm hne]

/-- With every index in bounds the tally loop adds to each entry the number of
occurrences of its index among the `nProcId` values read. -/
theorem tallyLoop_spec (map : List LOGICALPROCESSORDATA) (is : List Nat) (arr : List Nat)
    (h : ∀ i ∈ is, i < map.length ∧
      (map.getD i LOGICALPROCESSORDATA.zero).nProcId < arr.length) :
    ∃ arr1, tallyLoop map is arr = some arr1 ∧ arr1.length = arr.length ∧
      ∀ k, arr1.getD k 0 = arr.getD k 0 + (procIdsAt map is).count k := by
  induction is generalizing arr with
  | nil => exact ⟨arr, rfl, rfl, by simp [procIdsAt]⟩
  | cons i is ih =>
    have hi := h i (List.mem_cons_self _ _)
    have hrest : ∀ j ∈ is, j < map.length ∧
        (map.getD j LOGICALPROCESSORDATA.zero).nProcId <
          (arr.set (map.getD i LOGICALPROCESSORDATA.zero).nProcId
            (arr.getD (map.getD i LOGICALPROCESSORDATA.zero).nProcId 0 + 1)).length := by
      intro j hj
      rw [List.length_set]
      exact h j (List.mem_cons_of_mem _ hj)
    obtain ⟨arr1, h1, h2, h3⟩ := ih _ hrest
    refine ⟨arr1, ?_, ?_, ?_⟩
    · simp only [tallyLoop]
      rw [if_pos hi]
      exact h1
    · rw [h2, List.length_set]
    · intro k
      rw [h3 k, getD_set_nat _ _ _ _ hi.2]
      simp only [procIdsAt, List.map_cons, List.count_cons]
      by_cases hk : k = (map.getD i LOGICALPROCESSORDATA.zero).nProcId
      · rw [if_pos hk, if_pos (by rw [hk]; exact beq_self_eq_true _), hk]
        omega
      · have hk2 : ¬ ((map.getD i LOGICALPROCESSORDATA.zero).nProcId == k) = true := by
          rw [beq_iff_eq]; exact fun e => hk e.symm
        rw [if_neg hk, if_neg hk2]
        omega

/-- The counting loop adds the number of non-zero entries among the indices it visits. -/
theorem countLoop_eq (arr : List Nat) (js : List Nat) (c : Int) :
    countLoop arr js c = c + ((js.filter (fun i => decide (arr.getD i 0 ≠ 0))).length : Int) := by
  induction js generalizing c with
  | nil => simp [countLoop]
  | cons j js ih =>
    simp only [countLoop]
    rw [ih]
    by_cases hj : arr.getD j 0 = 0
    · rw [if_neg (not_not.2 hj),
        List.filter_cons_of_neg (by rw [decide_eq_true_eq]; exact not_not.2 hj)]
    · rw [if_pos hj]
      simp only [List.filter_cons, decide_eq_true hj, if_true, List.length_cons]
      push_cast
      ring

/-- Among `0..n-1`, the values that occur in `ids` number as many as the distinct
elements of `ids`, when every element is below `n`. -/
theorem distinct_below (ids : List Nat) (n : Nat) (h : ∀ k ∈ ids, k < n) :
    ((List.range n).filter (fun k => decide (ids.count k ≠ 0))).length = ids.dedup.length := by
  have hnd : ((List.range n).filter (fun k => decide (ids.count k ≠ 0))).Nodup :=
    (List.nodup_range n).filter _
  rw [← List.toFinset_card_of_nodup hnd, ← List.card_toFinset]
  congr 1
  ext k
  simp only [List.mem_toFinset, List.mem_filter, List.mem_range, decide_eq_true_eq]
  rw [← Nat.pos_iff_ne_zero, List.count_pos_iff]
  constructor
  · exact fun hk => hk.2
  · exact fun hk => ⟨h k hk, hk⟩

/-- The `nProcId` values read at indices `0..n-1` are those of the first `n` records. -/
theorem procIdsAt_range (map : List LOGICALPROCESSORDATA) (n : Nat) (hn : n ≤ map.length) :
    procIdsAt map (List.range n) = (map.take n).map (fun p => p.nProcId) := by
  induction n with
  | zero => simp [procIdsAt]
  | succ n ih =>
    have hlt : n < map.length := by omega
    have ih1 := ih (by omega)
    unfold procIdsAt at ih1 ⊢
    rw [List.range_succ, List.map_append, ih1, List.take_succ, List.map_append]
    simp [List.getD_eq_getElem?_getD, List.getElem?_eq_getElem hlt]

/-- When every `nProcId` of the first `numCores` records is an index of `PhysProcIds`
(below 24), the two counting loops return the number of distinct `nProcId` values. -/
theorem countPhysProcIds_distinct (map : List LOGICALPROCESSORDATA) (numCores : Nat)
    (hn : numCores ≤ map.length)
    (hid : ∀ p ∈ map.take numCores,
      p.nProcId < MAX_NUMBER_OF_PHYSICAL_PROCESSORS + MAX_NUMBER_OF_IOAPICS) :
    countPhysProcIds map numCores =
      some (((map.take numCores).map (fun p => p.nProcId)).dedup.length : Int) := by
  have hids : ∀ k ∈ procIdsAt map (List.range numCores),
      k < MAX_NUMBER_OF_PHYSICAL_PROCESSORS + MAX_NUMBER_OF_IOAPICS := by
    rw [procIdsAt_range map numCores hn]
    intro k hk
    obtain ⟨p, hp, rfl⟩ := List.mem_map.1 hk
    exact hid p hp
  have hpre : ∀ i ∈ List.range numCores, i < map.length ∧
      (map.getD i LOGICALPROCESSORDATA.zero).nProcId <
        (List.replicate (MAX_NUMBER_OF_PHYSICAL_PROCESSORS + MAX_NUMBER_OF_IOAPICS) 0).length := by
    intro i hi
    rw [List.mem_range] at hi
    refine ⟨by omega, ?_⟩
    rw [List.length_replicate]
    apply hids
    exact List.mem_map.2 ⟨i, List.mem_range.2 hi, rfl⟩
  obtain ⟨arr1, h1, _, h3⟩ := tallyLoop_spec map (List.range numCores) _ hpre
  unfold countPhysProcIds
  rw [h1]
  simp only [countLoop_eq, zero_add]
  have hfun : (fun i => decide (arr1.getD i 0 ≠ 0)) =
      (fun k => decide ((procIdsAt map (List.range numCores)).count k ≠ 0)) := by
    funext k
    have hz : (List.replicate (MAX_NUMBER_OF_PHYSICAL_PROCESSORS + MAX_NUMBER_OF_IOAPICS)
        0).getD k 0 = 0 := by
      rw [List.getD_eq_getElem?_getD, List.getElem?_replicate]
      split <;> rfl
    rw [h3 k, hz, zero_add]
  rw [hfun, distinct_below _ _ hids, procIdsAt_range map numCores hn]

/-! ### The singleton and the cached path -/

/-- After `instance()` the singleton exists and is the value returned. -/
theorem instance_sInstance (t : Target) (pf : Platform) (st : State) :
    (instance_ t pf st).2.sInstance = some (instance_ t pf st).1 := by
  unfold instance_
  cases h : st.sInstance with
  | some s => simpa using h
  | none => rfl

/-- `instance()` on an existing singleton changes nothing. -/
theorem instance_of_some (t : Target) (pf : Platform) (st : State) (s : System)
    (h : st.sInstance = some s) : instance_ t pf st = (s, st) := by
  unfold instance_; rw [h]

/-- `instance()` does not touch the affinity mask. -/
theorem instance_mask (t : Target) (pf : Platform) (st : State) :
    (instance_ t pf st).2.processAffinityMask = st.processAffinityMask := by
  unfold instance_
  cases st.sInstance with
  | some s => rfl
  | none => cases t <;> rfl

/-- A retagged call returned exactly when the call returned. -/
theorem Result.map_eq_ret {α β : Type} (f : α → β) (r : Result α) (w : β) (st1 : State)
    (h : r.map f = .ret w st1) : ∃ v, r = .ret v st1 ∧ w = f v := by
  cases r with
  | ret v st => simp only [Result.map, Result.ret.injEq] at h; exact ⟨v, by rw [h.2], h.1.symm⟩
  | threw st => simp [Result.map] at h
  | undefined => simp [Result.map] at h

/-- A retagged call threw exactly when the call threw. -/
theorem Result.map_eq_threw {α β : Type} (f : α → β) (r : Result α) (st1 : State)
    (h : r.map f = .threw st1) : r = .threw st1 := by
  cases r with
  | ret v st => simp [Result.map] at h
  | threw st => simp only [Result.map, Result.threw.injEq] at h; rw [h]
  | undefined => simp [Result.map] at h

/-- Unfolding of `Result.returnsWith`. -/
theorem Result.returnsWith_iff {α : Type} (r : Result α) (v : α) (P : State → Prop) :
    r.returnsWith v P ↔ ∃ st, r = .ret v st ∧ P st := by
  cases r with
  | ret w st =>
    simp only [Result.returnsWith, Result.ret.injEq]
    constructor
    · rintro ⟨rfl, hp⟩; exact ⟨st, ⟨rfl, rfl⟩, hp⟩
    · rintro ⟨st2, ⟨rfl, rfl⟩, hp⟩; exact ⟨rfl, hp⟩
  | threw st => simp [Result.returnsWith]
  | undefined => simp [Result.returnsWith]

/-- The cached path: a `Computed` cell is returned as stored, the state is untouched. -/
theorem call_of_stored (a : Accessor) (t : Target) (pf : Platform) (st : State) (v : Value)
    (h : a.stored st v) : a.call t pf st = .ret v st := by
  obtain ⟨s, hs, hflag, hv⟩ := h
  cases a <;>
    simp only [Accessor.cell] at hflag <;>
    simp [Accessor.call, hasSse2, hasSse3, hasSse4_1, hasSse4_2, hasX86_64, getNumCpus,
      getNumCores, getOsMajorVersion, getOsMinorVersion, getOsBugFixVersion,
      instance_of_some t pf st s hs, hflag, Result.map, hv]

/-! ### What a returning call leaves behind -/

/-- A returning `hasSse2` leaves its cell `Computed` with the returned value. -/
theorem hasSse2_stored (t : Target) (pf : Platform) (st st1 : State) (v : Bool)
    (h : hasSse2 t pf st = .ret v st1) : Accessor.hasSse2.stored st1 (.bool v) := by
  unfold hasSse2 at h
  have hi := instance_sInstance t pf st
  generalize instance_ t pf st = r at h hi
  obtain ⟨s, st0⟩ := r
  simp only at h hi
  split at h
  · cases t <;> simp only [sysctlInt] at h <;> (try split at h) <;> cases h <;>
      exact ⟨_, rfl, by simp [System.mark, Accessor.cell], rfl⟩
  · rename_i hflag
    cases h
    exact ⟨s, hi, by simpa using hflag, rfl⟩

/-- A returning `hasSse3` leaves its cell `Computed` with the returned value. -/
theorem hasSse3_stored (t : Target) (pf : Platform) (st st1 : State) (v : Bool)
    (h : hasSse3 t pf st = .ret v st1) : Accessor.hasSse3.stored st1 (.bool v) := by
  unfold hasSse3 at h
  have hi := instance_sInstance t pf st
  generalize instance_ t pf st = r at h hi
  obtain ⟨s, st0⟩ := r
  simp only at h hi
  split at h
  · cases t <;> simp only [sysctlInt] at h <;> (try split at h) <;> cases h <;>
      exact ⟨_, rfl, by simp [System.mark, Accessor.cell], rfl⟩
  · rename_i hflag
    cases h
    exact ⟨s, hi, by simpa using hflag, rfl⟩

/-- A returning `hasSse4_1` leaves its cell `Computed` with the returned value. -/
theorem hasSse4_1_stored (t : Target) (pf : Platform) (st st1 : State) (v : Bool)
    (h : hasSse4_1 t pf st = .ret v st1) : Accessor.hasSse4_1.stored st1 (.bool v) := by
  unfold hasSse4_1 at h
  have hi := instance_sInstance t pf st
  generalize instance_ t pf st = r at h hi
  obtain ⟨s, st0⟩ := r
  simp only at h hi
  split at h
  · cases t <;> simp only [sysctlInt] at h <;> (try split at h) <;> cases h <;>
      exact ⟨_, rfl, by simp [System.mark, Accessor.cell], rfl⟩
  · rename_i hflag
    cases h
    exact ⟨s, hi, by simpa using hflag, rfl⟩

/-- A returning `hasSse4_2` leaves its cell `Computed` with the returned value. -/
theorem hasSse4_2_stored (t : Target) (pf : Platform) (st st1 : State) (v : Bool)
    (h : hasSse4_2 t pf st = .ret v st1) : Accessor.hasSse4_2.stored st1 (.bool v) := by
  unfold hasSse4_2 at h
  have hi := instance_sInstance t pf st
  generalize instance_ t pf st = r at h hi
  obtain ⟨s, st0⟩ := r
  simp only at h hi
  split at h
  · cases t <;> simp only [sysctlInt] at h <;> (try split at h) <;> cases h <;>
      exact ⟨_, rfl, by simp [System.mark, Accessor.cell], rfl⟩
  · rename_i hflag
    cases h
    exact ⟨s, hi, by simpa using hflag, rfl⟩

/-- A returning `hasX86_64` leaves its cell `Computed` with the returned value. -/
theorem hasX86_64_stored (t : Target) (pf : Platform) (st st1 : State) (v : Bool)
    (h : hasX86_64 t pf st = .ret v st1) : Accessor.hasX86_64.stored st1 (.bool v) := by
  unfold hasX86_64 at h
  have hi := instance_sInstance t pf st
  generalize instance_ t pf st = r at h hi
  obtain ⟨s, st0⟩ := r
  simp only at h hi
  split at h
  · cases t <;> simp only [sysctlInt] at h <;> (try split at h) <;> cases h <;>
      exact ⟨_, rfl, by simp [System.mark, Accessor.cell], rfl⟩
  · rename_i hflag
    cases h
    exact ⟨s, hi, by simpa using hflag, rfl⟩

/-- A returning `getNumCores` leaves its cell `Computed` with the returned value. -/
theorem getNumCores_stored (t : Target) (pf : Platform) (st st1 : State) (v : Int)
    (h : getNumCores t pf st = .ret v st1) : Accessor.getNumCores.stored st1 (.int v) := by
  unfold getNumCores at h
  have hi := instance_sInstance t pf st
  generalize instance_ t pf st = r at h hi
  obtain ⟨s, st0⟩ := r
  simp only at h hi
  split at h
  · cases t <;> simp only [sysctlInt] at h <;> (try split at h) <;> cases h <;>
      exact ⟨_, rfl, by simp [System.mark, Accessor.cell], rfl⟩
  · rename_i hflag
    cases h
    exact ⟨s, hi, by simpa using hflag, rfl⟩

/-- A returning `getNumCpus` leaves its cell `Computed` with the returned value. -/
theorem getNumCpus_stored (t : Target) (pf : Platform) (st st1 : State) (v : Int)
    (h : getNumCpus t pf st = .ret v st1) :
    Accessor.getNumCpus.stored st1 (.int v) := by
  unfold getNumCpus at h
  have hi := instance_sInstance t pf st
  generalize instance_ t pf st = r at h hi
  obtain ⟨s, st0⟩ := r
  simp only at h hi
  split at h
  · cases t with
    | msw =>
      simp only at h
      split at h
      · cases h
      · cases h
      · split at h
        · cases h
        · cases h
          exact ⟨_, rfl, by simp [System.mark, Accessor.cell], rfl⟩
    | cocoa =>
      simp only [sysctlInt] at h
      split at h <;> cases h
      exact ⟨_, rfl, by simp [System.mark, Accessor.cell], rfl⟩
    | linux defs =>
      cases h
      exact ⟨_, rfl, by simp [System.mark, Accessor.cell], rfl⟩
  · rename_i hflag
    cases h
    exact ⟨s, hi, by simpa using hflag, rfl⟩

/-- A returning `getOsMajorVersion` leaves its cell `Computed` with the returned value. -/
theorem getOsMajorVersion_stored (t : Target) (pf : Platform) (st st1 : State) (v : Int)
    (h : getOsMajorVersion t pf st = .ret v st1) : Accessor.getOsMajorVersion.stored st1 (.int v) := by
  unfold getOsMajorVersion at h
  have hi := instance_sInstance t pf st
  generalize instance_ t pf st = r at h hi
  obtain ⟨s, st0⟩ := r
  simp only at h hi
  split at h
  · cases t <;> simp only [sysctlInt] at h <;> (try split at h) <;> cases h <;>
      exact ⟨_, rfl, by simp [System.mark, Accessor.cell], rfl⟩
  · rename_i hflag
    cases h
    exact ⟨s, hi, by simpa using hflag, rfl⟩

/-- A returning `getOsMinorVersion` leaves its cell `Computed` with the returned value,
except on `CINDER_LINUX`, where it returns 26 and leaves the cell as it was. -/
theorem getOsMinorVersion_stored (t : Target) (pf : Platform) (st st1 : State) (v : Int)
    (h : getOsMinorVersion t pf st = .ret v st1) :
    Accessor.getOsMinorVersion.stored st1 (.int v) ∨
      ((∃ defs, t = .linux defs) ∧ v = 26 ∧
        ∃ s, st1.sInstance = some s ∧ s.mCachedValues .OS_MINOR = false) := by
  unfold getOsMinorVersion at h
  have hi := instance_sInstance t pf st
  generalize instance_ t pf st = r at h hi
  obtain ⟨s, st0⟩ := r
  simp only at h hi
  split at h
  · rename_i hflag
    cases t with
    | cocoa =>
      simp only at h
      split at h <;> cases h
      exact Or.inl ⟨_, rfl, by simp [System.mark, Accessor.cell], rfl⟩
    | msw =>
      cases h
      exact Or.inl ⟨_, rfl, by simp [System.mark, Accessor.cell], rfl⟩
    | linux defs =>
      cases h
      exact Or.inr ⟨⟨defs, rfl⟩, rfl, s, hi, hflag⟩
  · rename_i hflag
    cases h
    exact Or.inl ⟨s, hi, by simpa using hflag, rfl⟩

/-- A returning `getOsBugFixVersion` leaves its cell `Computed` with the returned value. -/
theorem getOsBugFixVersion_stored (t : Target) (pf : Platform) (st st1 : State) (v : Int)
    (h : getOsBugFixVersion t pf st = .ret v st1) : Accessor.getOsBugFixVersion.stored st1 (.int v) := by
  unfold getOsBugFixVersion at h
  have hi := instance_sInstance t pf st
  generalize instance_ t pf st = r at h hi
  obtain ⟨s, st0⟩ := r
  simp only at h hi
  split at h
  · cases t <;> simp only [sysctlInt] at h <;> (try split at h) <;> cases h <;>
      exact ⟨_, rfl, by simp [System.mark, Accessor.cell], rfl⟩
  · rename_i hflag
    cases h
    exact ⟨s, hi, by simpa using hflag, rfl⟩

/-! ### What a throwing call leaves behind -/

/-- `getNumCores` cannot throw on `CINDER_MSW`. -/
theorem getNumCores_msw_not_threw (pf : Platform) (st st1 : State)
    (h : getNumCores .msw pf st = .threw st1) : False := by
  unfold getNumCores at h
  generalize instance_ .msw pf st = r at h
  obtain ⟨s, st0⟩ := r
  simp only at h
  split at h <;> cases h

/-- A throwing `hasSse2` was compiled for `CINDER_COCOA` and leaves its cell `Uncomputed`. -/
theorem hasSse2_threw (t : Target) (pf : Platform) (st st1 : State)
    (h : hasSse2 t pf st = .threw st1) : t = .cocoa ∧ Accessor.hasSse2.uncomputed st1 := by
  unfold hasSse2 at h
  have hi := instance_sInstance t pf st
  generalize instance_ t pf st = r at h hi
  obtain ⟨s, st0⟩ := r
  simp only at h hi
  split at h
  · rename_i hflag
    cases t with
    | cocoa =>
      simp only [sysctlInt] at h
      split at h
      · rename_i heq
        cases h
        simp only [Prod.mk.injEq] at heq
        exact ⟨rfl, s, by rw [← heq.2]; exact hi, hflag⟩
      · cases h
    | msw => cases h
    | linux defs => cases h
  · cases h

/-- A throwing `hasSse3` was compiled for `CINDER_COCOA` and leaves its cell `Uncomputed`. -/
theorem hasSse3_threw (t : Target) (pf : Platform) (st st1 : State)
    (h : hasSse3 t pf st = .threw st1) : t = .cocoa ∧ Accessor.hasSse3.uncomputed st1 := by
  unfold hasSse3 at h
  have hi := instance_sInstance t pf st
  generalize instance_ t pf st = r at h hi
  obtain ⟨s, st0⟩ := r
  simp only at h hi
  split at h
  · rename_i hflag
    cases t with
    | cocoa =>
      simp only [sysctlInt] at h
      split at h
      · rename_i heq
        cases h
        simp only [Prod.mk.injEq] at heq
        exact ⟨rfl, s, by rw [← heq.2]; exact hi, hflag⟩
      · cases h
    | msw => cases h
    | linux defs => cases h
  · cases h

/-- A throwing `hasSse4_1` was compiled for `CINDER_COCOA` and leaves its cell `Uncomputed`. -/
theorem hasSse4_1_threw (t : Target) (pf : Platform) (st st1 : State)
    (h : hasSse4_1 t pf st = .threw st1) : t = .cocoa ∧ Accessor.hasSse4_1.uncomputed st1 := by
  unfold hasSse4_1 at h
  have hi := instance_sInstance t pf st
  generalize instance_ t pf st = r at h hi
  obtain ⟨s, st0⟩ := r
  simp only at h hi
  split at h
  · rename_i hflag
    cases t with
    | cocoa =>
      simp only [sysctlInt] at h
      split at h
      · rename_i heq
        cases h
        simp only [Prod.mk.injEq] at heq
        exact ⟨rfl, s, by rw [← heq.2]; exact hi, hflag⟩
      · cases h
    | msw => cases h
    | linux defs => cases h
  · cases h

/-- A throwing `hasSse4_2` was compiled for `CINDER_COCOA` and leaves its cell `Uncomputed`. -/
theorem hasSse4_2_threw (t : Target) (pf : Platform) (st st1 : State)
    (h : hasSse4_2 t pf st = .threw st1) : t = .cocoa ∧ Accessor.hasSse4_2.uncomputed st1 := by
  unfold hasSse4_2 at h
  have hi := instance_sInstance t pf st
  generalize instance_ t pf st = r at h hi
  obtain ⟨s, st0⟩ := r
  simp only at h hi
  split at h
  · rename_i hflag
    cases t with
    | cocoa =>
      simp only [sysctlInt] at h
      split at h
      · rename_i heq
        cases h
        simp only [Prod.mk.injEq] at heq
        exact ⟨rfl, s, by rw [← heq.2]; exact hi, hflag⟩
      · cases h
    | msw => cases h
    | linux defs => cases h
  · cases h

/-- A throwing `hasX86_64` was compiled for `CINDER_COCOA` and leaves its cell `Uncomputed`. -/
theorem hasX86_64_threw (t : Target) (pf : Platform) (st st1 : State)
    (h : hasX86_64 t pf st = .threw st1) : t = .cocoa ∧ Accessor.hasX86_64.uncomputed st1 := by
  unfold hasX86_64 at h
  have hi := instance_sInstance t pf st
  generalize instance_ t pf st = r at h hi
  obtain ⟨s, st0⟩ := r
  simp only at h hi
  split at h
  · rename_i hflag
    cases t with
    | cocoa =>
      simp only [sysctlInt] at h
      split at h
      · rename_i heq
        cases h
        simp only [Prod.mk.injEq] at heq
        exact ⟨rfl, s, by rw [← heq.2]; exact hi, hflag⟩
      · cases h
    | msw => cases h
    | linux defs => cases h
  · cases h

/-- A throwing `getNumCores` was compiled for `CINDER_COCOA` and leaves its cell `Uncomputed`. -/
theorem getNumCores_threw (t : Target) (pf : Platform) (st st1 : State)
    (h : getNumCores t pf st = .threw st1) : t = .cocoa ∧ Accessor.getNumCores.uncomputed st1 := by
  unfold getNumCores at h
  have hi := instance_sInstance t pf st
  generalize instance_ t pf st = r at h hi
  obtain ⟨s, st0⟩ := r
  simp only at h hi
  split at h
  · rename_i hflag
    cases t with
    | cocoa =>
      simp only [sysctlInt] at h
      split at h
      · rename_i heq
        cases h
        simp only [Prod.mk.injEq] at heq
        exact ⟨rfl, s, by rw [← heq.2]; exact hi, hflag⟩
      · cases h
    | msw => cases h
    | linux defs => cases h
  · cases h

/-- A throwing `getNumCpus` was compiled for `CINDER_COCOA` and leaves its cell `Uncomputed`. -/
theorem getNumCpus_threw (t : Target) (pf : Platform) (st st1 : State)
    (h : getNumCpus t pf st = .threw st1) : t = .cocoa ∧ Accessor.getNumCpus.uncomputed st1 := by
  unfold getNumCpus at h
  have hi := instance_sInstance t pf st
  generalize instance_ t pf st = r at h hi
  obtain ⟨s, st0⟩ := r
  simp only at h hi
  split at h
  · rename_i hflag
    cases t with
    | msw =>
      simp only at h
      split at h
      · cases h
      · rename_i heq
        exact absurd heq (fun e => getNumCores_msw_not_threw _ _ _ e)
      · split at h <;> cases h
    | cocoa =>
      simp only [sysctlInt] at h
      split at h
      · rename_i heq
        cases h
        simp only [Prod.mk.injEq] at heq
        exact ⟨rfl, s, by rw [← heq.2]; exact hi, hflag⟩
      · cases h
    | linux defs => cases h
  · cases h

/-- A throwing `getOsMajorVersion` was compiled for `CINDER_COCOA` and leaves its cell `Uncomputed`. -/
theorem getOsMajorVersion_threw (t : Target) (pf : Platform) (st st1 : State)
    (h : getOsMajorVersion t pf st = .threw st1) : t = .cocoa ∧ Accessor.getOsMajorVersion.uncomputed st1 := by
  unfold getOsMajorVersion at h
  generalize instance_ t pf st = r at h
  obtain ⟨s, st0⟩ := r
  simp only at h
  split at h
  · rename_i hflag
    cases t <;> simp only [sysctlInt] at h <;> (try split at h) <;> cases h
    exact ⟨rfl, _, rfl, hflag⟩
  · cases h

/-- A throwing `getOsMinorVersion` was compiled for `CINDER_COCOA` and leaves its cell `Uncomputed`. -/
theorem getOsMinorVersion_threw (t : Target) (pf : Platform) (st st1 : State)
    (h : getOsMinorVersion t pf st = .threw st1) : t = .cocoa ∧ Accessor.getOsMinorVersion.uncomputed st1 := by
  unfold getOsMinorVersion at h
  generalize instance_ t pf st = r at h
  obtain ⟨s, st0⟩ := r
  simp only at h
  split at h
  · rename_i hflag
    cases t <;> simp only [sysctlInt] at h <;> (try split at h) <;> cases h
    exact ⟨rfl, _, rfl, hflag⟩
  · cases h

/-- A throwing `getOsBugFixVersion` was compiled for `CINDER_COCOA` and leaves its cell `Uncomputed`. -/
theorem getOsBugFixVersion_threw (t : Target) (pf : Platform) (st st1 : State)
    (h : getOsBugFixVersion t pf st = .threw st1) : t = .cocoa ∧ Accessor.getOsBugFixVersion.uncomputed st1 := by
  unfold getOsBugFixVersion at h
  generalize instance_ t pf st = r at h
  obtain ⟨s, st0⟩ := r
  simp only at h
  split at h
  · rename_i hflag
    cases t <;> simp only [sysctlInt] at h <;> (try split at h) <;> cases h
    exact ⟨rfl, _, rfl, hflag⟩
  · cases h

/-- A call that throws was compiled for `CINDER_COCOA` and leaves its cell `Uncomputed`. -/
theorem call_threw (a : Accessor) (t : Target) (pf : Platform) (st st1 : State)
    (h : a.call t pf st = .threw st1) : t = .cocoa ∧ a.uncomputed st1 := by
  cases a <;> simp only [Accessor.call] at h <;> have hw := Result.map_eq_threw _ _ _ h
  · exact hasSse2_threw t pf st st1 hw
  · exact hasSse3_threw t pf st st1 hw
  · exact hasSse4_1_threw t pf st st1 hw
  · exact hasSse4_2_threw t pf st st1 hw
  · exact hasX86_64_threw t pf st st1 hw
  · exact getNumCpus_threw t pf st st1 hw
  · exact getNumCores_threw t pf st st1 hw
  · exact getOsMajorVersion_threw t pf st st1 hw
  · exact getOsMinorVersion_threw t pf st st1 hw
  · exact getOsBugFixVersion_threw t pf st st1 hw

/-- On `CINDER_COCOA` a call on an `Uncomputed` cell whose query succeeds returns the
queried value and marks the cell. -/
theorem call_of_uncomputed (a : Accessor) (pf : Platform) (st : State) (v : Value)
    (hu : a.uncomputed st) (hq : a.cocoaQuery pf = .ok v) :
    (a.call .cocoa pf st).returnsWith v a.computed := by
  obtain ⟨s, hs, hflag⟩ := hu
  cases a <;> simp only [Accessor.cell] at hflag <;> simp only [Accessor.cocoaQuery] at hq
  · cases hg : getSysCtlValue sizeofInt pf "hw.optional.sse2" with
    | error e => rw [hg] at hq; cases hq
    | ok x =>
      rw [hg] at hq
      cases hq
      simp [Accessor.call, hasSse2, instance_of_some _ pf st s hs, hflag, sysctlInt, hg,
        Result.map, Result.returnsWith, Accessor.computed, State.store, System.mark,
        Accessor.cell]
  · cases hg : getSysCtlValue sizeofInt pf "hw.optional.sse3" with
    | error e => rw [hg] at hq; cases hq
    | ok x =>
      rw [hg] at hq
      cases hq
      simp [Accessor.call, hasSse3, instance_of_some _ pf st s hs, hflag, sysctlInt, hg,
        Result.map, Result.returnsWith, Accessor.computed, State.store, System.mark,
        Accessor.cell]
  · cases hg : getSysCtlValue sizeofInt pf "hw.optional.sse4_1" with
    | error e => rw [hg] at hq; cases hq
    | ok x =>
      rw [hg] at hq
      cases hq
      simp [Accessor.call, hasSse4_1, instance_of_some _ pf st s hs, hflag, sysctlInt, hg,
        Result.map, Result.returnsWith, Accessor.computed, State.store, System.mark,
        Accessor.cell]
  · cases hg : getSysCtlValue sizeofInt pf "hw.optional.sse4_2" with
    | error e => rw [hg] at hq; cases hq
    | ok x =>
      rw [hg] at hq
      cases hq
      simp [Accessor.call, hasSse4_2, instance_of_some _ pf st s hs, hflag, sysctlInt, hg,
        Result.map, Result.returnsWith, Accessor.computed, State.store, System.mark,
        Accessor.cell]
  · cases hg : getSysCtlValue sizeofInt pf "hw.optional.x86_64" with
    | error e => rw [hg] at hq; cases hq
    | ok x =>
      rw [hg] at hq
      cases hq
      simp [Accessor.call, hasX86_64, instance_of_some _ pf st s hs, hflag, sysctlInt, hg,
        Result.map, Result.returnsWith, Accessor.computed, State.store, System.mark,
        Accessor.cell]
  · cases hg : getSysCtlValue sizeofInt pf "hw.packages" with
    | error e => rw [hg] at hq; cases hq
    | ok x =>
      rw [hg] at hq
      cases hq
      simp [Accessor.call, getNumCpus, instance_of_some _ pf st s hs, hflag, sysctlInt, hg,
        Result.map, Result.returnsWith, Accessor.computed, State.store, System.mark,
        Accessor.cell]
  · cases hg : getSysCtlValue sizeofInt pf "hw.logicalcpu" with
    | error e => rw [hg] at hq; cases hq
    | ok x =>
      rw [hg] at hq
      cases hq
      simp [Accessor.call, getNumCores, instance_of_some _ pf st s hs, hflag, sysctlInt, hg,
        Result.map, Result.returnsWith, Accessor.computed, State.store, System.mark,
        Accessor.cell]
  · cases hg : pf.Gestalt .gestaltSystemVersionMajor with
    | error e => rw [hg] at hq; cases hq
    | noErr x =>
      rw [hg] at hq
      cases hq
      simp [Accessor.call, getOsMajorVersion, instance_of_some _ pf st s hs, hflag, gestaltInto, hg,
        Result.map, Result.returnsWith, Accessor.computed, State.store, System.mark,
        Accessor.cell]
  · cases hg : pf.Gestalt .gestaltSystemVersionMinor with
    | error e => rw [hg] at hq; cases hq
    | noErr x =>
      rw [hg] at hq
      cases hq
      simp [Accessor.call, getOsMinorVersion, instance_of_some _ pf st s hs, hflag, gestaltInto, hg,
        Result.map, Result.returnsWith, Accessor.computed, State.store, System.mark,
        Accessor.cell]
  · cases hg : pf.Gestalt .gestaltSystemVersionBugFix with
    | error e => rw [hg] at hq; cases hq
    | noErr x =>
      rw [hg] at hq
      cases hq
      simp [Accessor.call, getOsBugFixVersion, instance_of_some _ pf st s hs, hflag, gestaltInto, hg,
        Result.map, Result.returnsWith, Accessor.computed, State.store, System.mark,
        Accessor.cell]

/-! ### The affinity mask -/

/-- `getNumCores` does not touch the affinity mask. -/
theorem getNumCores_mask (t : Target) (pf : Platform) (st st1 : State) (v : Int)
    (h : getNumCores t pf st = .ret v st1) :
    st1.processAffinityMask = st.processAffinityMask := by
  unfold getNumCores at h
  have hm := instance_mask t pf st
  generalize instance_ t pf st = r at h hm
  obtain ⟨s, st0⟩ := r
  simp only at h hm
  split at h
  · cases t with
    | cocoa =>
      simp only [sysctlInt] at h
      split at h
      · cases h
      · rename_i heq
        cases h
        simp only [Prod.mk.injEq] at heq
        rw [← hm, ← heq.2]
        rfl
    | msw => cases h; exact hm
    | linux defs => cases h; exact hm
  · cases h; exact hm

/-- The scan ends with the saved mask in force when the platform accepts it. -/
theorem getNumCpusScan_mask (pf : Platform) (numCores : Int) (ebx saved : Nat)
    (st st1 : State) (n : Int) (hacc : pf.acceptsMask saved = true)
    (h : getNumCpusScan pf numCores ebx saved st = some (n, st1)) :
    st1.processAffinityMask = saved := by
  unfold getNumCpusScan at h
  simp only at h
  split at h
  · cases h
  · split at h
    · cases h
    · cases h
      simp [SetProcessAffinityMask, hacc]

/-- A returning `getNumCpus` leaves the affinity mask as it found it. -/
theorem getNumCpus_mask (t : Target) (pf : Platform) (st st1 : State) (v : Int)
    (hacc : pf.acceptsMask st.processAffinityMask = true)
    (h : getNumCpus t pf st = .ret v st1) :
    st1.processAffinityMask = st.processAffinityMask := by
  unfold getNumCpus at h
  have hm := instance_mask t pf st
  generalize instance_ t pf st = r at h hm
  obtain ⟨s, st0⟩ := r
  simp only at h hm
  split at h
  · cases t with
    | cocoa =>
      simp only [sysctlInt] at h
      split at h
      · cases h
      · rename_i heq
        cases h
        simp only [Prod.mk.injEq] at heq
        rw [← hm, ← heq.2]
        rfl
    | msw =>
      simp only [GetProcessAffinityMask] at h
      split at h
      · cases h
      · cases h
      · split at h
        · cases h
        · rename_i hscan
          cases h
          rw [← hm] at hacc
          have := getNumCpusScan_mask _ _ _ _ _ _ _ hacc hscan
          rw [← hm]
          exact this
    | linux defs => cases h; exact hm
  · cases h; exact hm

/-! ### The scan of `getNumCpus` returns -/

/-- On a platform whose leaf loops terminate, `cpuid` returns from every state. -/
theorem cpuid_returns_all (pf : Platform) (hterm : leafLoopsTerminate pf) (i : Nat)
    (p : LOGICALPROCESSORDATA) (st : State) : ∃ q st1, cpuid pf i p st = some (q, st1) := by
  obtain ⟨q, st1, _, hc⟩ := cpuid_returns pf i p st (hterm _).1 (hterm _).2
  exact ⟨_, st1, hc⟩

/-- Reading `LogicalProcessorMap` after one in-bounds write. -/
theorem getD_set_record (l : List LOGICALPROCESSORDATA) (k i : Nat)
    (v : LOGICALPROCESSORDATA) (h : k < l.length) :
    (l.set k v).getD i LOGICALPROCESSORDATA.zero =
      if i = k then v else l.getD i LOGICALPROCESSORDATA.zero := by
  simp only [List.getD_eq_getElem?_getD, List.getElem?_set]
  by_cases hik : i = k
  · subst hik; simp [h]
  · have hki : ¬ k = i := fun e => hik e.symm
    simp [hik, hki]

/-- On a platform whose leaf loops terminate, the scan over the indices `a .. a+k-1`
of a table that is long enough and zeroed from `a` on returns; entries below `a` are
kept, and each entry it visits is a record `cpuid` produced from a zeroed record. -/
theorem scanLoop_range' (pf : Platform) (hterm : leafLoopsTerminate pf) (k : Nat) :
    ∀ (a : Nat) (map : List LOGICALPROCESSORDATA) (st : State), a + k ≤ map.length →
      (∀ j, a ≤ j → map.getD j LOGICALPROCESSORDATA.zero = LOGICALPROCESSORDATA.zero) →
      ∃ map1 st1, scanLoop pf (List.range' a k) (map, st) = some (map1, st1) ∧
        map1.length = map.length ∧
        (∀ j, j < a → map1.getD j LOGICALPROCESSORDATA.zero
          = map.getD j LOGICALPROCESSORDATA.zero) ∧
        (∀ j, a ≤ j → j < a + k → ∃ sa sb,
          cpuid pf j LOGICALPROCESSORDATA.zero sa
            = some (map1.getD j LOGICALPROCESSORDATA.zero, sb)) := by
  induction k with
  | zero =>
    intro a map st _ _
    exact ⟨map, st, rfl, rfl, fun _ _ => rfl, fun j h1 h2 => by omega⟩
  | succ k ih =>
    intro a map st hlen hzero
    have ha : a < map.length := by omega
    obtain ⟨p, st1, hp⟩ := cpuid_returns_all pf hterm a LOGICALPROCESSORDATA.zero st
    have hzero1 : ∀ j, a + 1 ≤ j →
        (map.set a p).getD j LOGICALPROCESSORDATA.zero = LOGICALPROCESSORDATA.zero := by
      intro j hj
      rw [getD_set_record _ _ _ _ ha, if_neg (by omega)]
      exact hzero j (by omega)
    obtain ⟨map1, st2, h1, h2, h3, h4⟩ :=
      ih (a + 1) (map.set a p) st1 (by rw [List.length_set]; omega) hzero1
    refine ⟨map1, st2, ?_, ?_, ?_, ?_⟩
    · show scanLoop pf (a :: List.range' (a + 1) k) (map, st) = _
      simp only [scanLoop]
      rw [if_pos ha, hzero a (Nat.le_refl a), hp]
      exact h1
    · rw [h2, List.length_set]
    · intro j hj
      rw [h3 j (by omega), getD_set_record _ _ _ _ ha, if_neg (by omega)]
    · intro j hj1 hj2
      by_cases hja : j = a
      · subst hja
        refine ⟨st, st1, ?_⟩
        rw [h3 j (by omega), getD_set_record _ _ _ _ ha, if_pos rfl]
        exact hp
      · exact h4 j (by omega) (by omega)

/-- Every entry of the zeroed table is the zeroed record. -/
theorem getD_replicate_zero (n j : Nat) :
    (List.replicate n LOGICALPROCESSORDATA.zero).getD j LOGICALPROCESSORDATA.zero
      = LOGICALPROCESSORDATA.zero := by
  rw [List.getD_eq_getElem?_getD, List.getElem?_replicate]
  split <;> rfl

/-- With at most 96 logical units, terminating leaf loops and package ids inside
`PhysProcIds`, the scan of `getNumCpus` returns. -/
theorem getNumCpusScan_returns (pf : Platform) (hterm : leafLoopsTerminate pf)
    (hids : packageIdsInTable pf) (numCores : Int) (ebx saved : Nat) (st : State)
    (hcount : numCores ≤ (MAX_NUMBER_OF_LOGICAL_PROCESSORS : Int)) :
    ∃ n st1, getNumCpusScan pf numCores ebx saved st = some (n, st1) := by
  have hle : numCores.toNat ≤ MAX_NUMBER_OF_LOGICAL_PROCESSORS := by
    have := hcount
    omega
  obtain ⟨map1, st1, h1, h2, _, h4⟩ := scanLoop_range' pf hterm numCores.toNat 0
    (List.replicate MAX_NUMBER_OF_LOGICAL_PROCESSORS LOGICALPROCESSORDATA.zero) st
    (by rw [List.length_replicate]; omega) (fun j _ => getD_replicate_zero _ j)
  rw [List.length_replicate] at h2
  have hcnt := countPhysProcIds_distinct map1 numCores.toNat (by omega) (by
    intro p hp
    obtain ⟨j, hj, rfl⟩ := List.mem_take_iff_getElem.1 hp
    have hj1 : j < numCores.toNat := by
      have := hj
      simp only [lt_inf_iff] at this
      exact this.1
    have hj2 : j < map1.length := by omega
    obtain ⟨sa, sb, hc⟩ := h4 j (Nat.zero_le j) (by omega)
    have hget : map1.getD j LOGICALPROCESSORDATA.zero = map1[j] := by
      rw [List.getD_eq_getElem?_getD, List.getElem?_eq_getElem hj2]; rfl
    rw [hget] at hc
    exact hids j sa sb _ hc)
  have hres : getNumCpusScan pf numCores ebx saved st =
      some ((((map1.take numCores.toNat).map (fun p => p.nProcId)).dedup.length : Int),
        SetProcessAffinityMask pf saved
          (lockToLogicalProcessor pf ((ebx >>> 24) &&& 0xFF) st1)) := by
    unfold getNumCpusScan
    simp only
    rw [List.range_eq_range', h1]
    simp only
    rw [hcnt]
  exact ⟨_, _, hres⟩

/-- On `CINDER_MSW`, `getNumCores` returns the scan count. -/
theorem getNumCores_msw_returns (pf : Platform) (st : State) :
    ∃ st1, getNumCores .msw pf st = .ret (scanCount pf st) st1 := by
  unfold getNumCores scanCount
  generalize instance_ .msw pf st = r
  obtain ⟨s, st0⟩ := r
  simp only
  split
  · exact ⟨_, rfl⟩
  · exact ⟨_, rfl⟩

/-- The scan count does not change once the instance exists. -/
theorem scanCount_after_instance (pf : Platform) (st : State) (q : Nat) :
    scanCount pf { (instance_ .msw pf st).2 with queries := q } = scanCount pf st := by
  have hi := instance_sInstance .msw pf st
  unfold scanCount
  rw [instance_of_some .msw pf { (instance_ .msw pf st).2 with queries := q }
    (instance_ .msw pf st).1 hi]

/-- A property kept by the body on every answer of the platform is kept by the loop. -/
theorem leafLoop_inv_answers (pf : Platform)
    (body : Nat → CPUInfo → LOGICALPROCESSORDATA → LOGICALPROCESSORDATA)
    (P : LOGICALPROCESSORDATA → Prop) (is : List Nat)
    (hbody : ∀ i ∈ is, ∀ m p, P p → P (body i (pf.cpuidInstr m i) p))
    (p : LOGICALPROCESSORDATA) (st : State) (h : P p) :
    P (leafLoop pf body is (p, st)).1 := by
  induction is generalizing p st with
  | nil => simpa [leafLoop] using h
  | cons i is ih =>
    simp only [leafLoop, cpuidwrap]
    apply ih
    · intro j hj; exact hbody j (List.mem_cons_of_mem _ hj)
    · exact hbody i (List.mem_cons_self _ _) _ _ h

/-- A property kept by every assignment of the query part, on the answers of the
platform, holds of its result. -/
theorem cpuidQuery_inv_answers (pf : Platform) (whichlp : Nat) (p q : LOGICALPROCESSORDATA)
    (st st1 : State) (P : LOGICALPROCESSORDATA → Prop)
    (h0 : ∀ r v, P r → P { r with nLargestStandardFunctionNumber := v })
    (h1 : ∀ r v, P r → P { r with nLargestExtendedFunctionNumber := v })
    (h2 : ∀ i m r, P r → P (stdBody i (pf.cpuidInstr m i) r))
    (h3 : ∀ i m r, P r → P (extBody i (pf.cpuidInstr m i) r))
    (hp : P p) (h : cpuidQuery pf whichlp p st = some (q, st1)) : P q := by
  unfold cpuidQuery at h
  simp only [cpuidwrap] at h
  split at h
  · exact absurd h (by simp)
  · simp only [leafLoop_mask] at h
    split at h
    · exact absurd h (by simp)
    · simp only [Option.some.injEq] at h
      have := congrArg Prod.fst h
      simp only at this
      rw [← this]
      apply leafLoop_inv_answers
      · intro i _ m r hr; exact h3 i m r hr
      · apply h1
        apply leafLoop_inv_answers
        · intro i _ m r hr; exact h2 i m r hr
        · exact h0 _ _ hp

/-- APIC ids below 48 give package ids below 24, whatever the core-id width. -/
theorem packageIdsInTable_of_apic (pf : Platform)
    (h : ∀ m, ((pf.cpuidInstr m 1).r1 >>> 24) &&& 0xff < 48) : packageIdsInTable pf := by
  intro i st st1 p hc
  unfold cpuid at hc
  split at hc
  · cases hc
  · rename_i q st2 hq
    simp only [Option.some.injEq, Prod.mk.injEq] at hc
    obtain ⟨rfl, _⟩ := hc
    have hw : q.nApicIdCoreIdSize ≤ 15 :=
      cpuidQuery_widthOnly pf i LOGICALPROCESSORDATA.zero q st st2 (by decide) hq
    have ha : q.nLocalApicId < 48 := by
      refine cpuidQuery_inv_answers pf i LOGICALPROCESSORDATA.zero q st st2
        (fun r => r.nLocalApicId < 48) ?_ ?_ ?_ ?_ (by decide) hq
      · intro r v hr; exact hr
      · intro r v hr; exact hr
      · intro j m r hr
        unfold stdBody
        split
        · rename_i hj
          subst hj
          exact h m
        · exact hr
      · intro j m r hr
        unfold extBody
        split <;> exact hr
    rw [cpuidDerive_nProcId q (by omega) hw, Nat.shiftRight_eq_div_pow]
    have hpos : 0 < (if q.nApicIdCoreIdSize = 0 then 1 else q.nApicIdCoreIdSize) := by
      split <;> omega
    have h2 : 2 ^ 1 ≤ 2 ^ (if q.nApicIdCoreIdSize = 0 then 1 else q.nApicIdCoreIdSize) :=
      Nat.pow_le_pow_right (by norm_num) hpos
    have h3 : q.nLocalApicId / 2 ^ (if q.nApicIdCoreIdSize = 0 then 1 else q.nApicIdCoreIdSize)
        ≤ q.nLocalApicId / 2 ^ 1 := Nat.div_le_div_left h2 (by norm_num)
    have h4 : q.nLocalApicId / 2 ^ 1 < 24 := by
      rw [pow_one]; omega
    exact Nat.lt_of_le_of_lt h3 h4

/-- The four-unit platform reports APIC ids below 48. -/
theorem fourUnits_apic (m : Nat) : ((fourUnits.cpuidInstr m 1).r1 >>> 24) &&& 0xff < 48 := by
  simp only [fourUnits, examplePlatform, topologyLeaves]
  split_ifs <;> decide

/-- The leaf loops terminate on the four-unit platform. -/
theorem fourUnits_terminate : leafLoopsTerminate fourUnits := by
  intro m
  constructor
  · show (1 : Nat) % UINT_MOD ≠ UINT_MOD - 1
    decide
  · show (0x80000008 : Nat) % UINT_MOD ≠ UINT_MOD - 1
    decide

/-! ## The claims -/

/-! ### C1: idempotence of the accessors -/

/-- Claim C1, as stated, fails: the platform query of a capability can be issued more
than once across calls. On `CINDER_COCOA`, with a platform that reports width 8 for
`hw.optional.sse2`, the first `hasSse2()` issues one `sysctlbyname`, throws and leaves
the cell `Uncomputed`; the second call issues the query again (the invocation counter
goes 0, 1, 2). -/
theorem C1_failed_query_reissued_counterexample :
    Accessor.hasSse2.call .cocoa mismatchPlatform (freshState 1)
        = .threw ⟨some exampleSystem, 1, 1⟩ ∧
    Accessor.hasSse2.call .cocoa mismatchPlatform ⟨some exampleSystem, 1, 1⟩
        = .threw ⟨some exampleSystem, 1, 2⟩ :=
  ⟨rfl, rfl⟩

/-- Claim C1, amended: for every accessor, every configuration, every state and every
pair of platform states, once a call has returned `v` leaving state `st1`, the next
call returns the same `v` and leaves `st1` exactly as it was: the invocation counter
does not move, so no platform primitive is invoked again after a success. -/
theorem C1_cached_after_success (a : Accessor) (t : Target) (pf1 pf2 : Platform)
    (st st1 : State) (v : Value) (h : a.call t pf1 st = .ret v st1) :
    a.call t pf2 st1 = .ret v st1 := by
  cases a <;> simp only [Accessor.call] at h <;>
    obtain ⟨w, hw, rfl⟩ := Result.map_eq_ret _ _ _ _ h
  · exact call_of_stored _ t pf2 st1 _ (hasSse2_stored t pf1 st st1 w hw)
  · exact call_of_stored _ t pf2 st1 _ (hasSse3_stored t pf1 st st1 w hw)
  · exact call_of_stored _ t pf2 st1 _ (hasSse4_1_stored t pf1 st st1 w hw)
  · exact call_of_stored _ t pf2 st1 _ (hasSse4_2_stored t pf1 st st1 w hw)
  · exact call_of_stored _ t pf2 st1 _ (hasX86_64_stored t pf1 st st1 w hw)
  · exact call_of_stored _ t pf2 st1 _ (getNumCpus_stored t pf1 st st1 w hw)
  · exact call_of_stored _ t pf2 st1 _ (getNumCores_stored t pf1 st st1 w hw)
  · exact call_of_stored _ t pf2 st1 _ (getOsMajorVersion_stored t pf1 st st1 w hw)
  · rcases getOsMinorVersion_stored t pf1 st st1 w hw with hst | ⟨⟨defs, rfl⟩, rfl, s, hs, hflag⟩
    · exact call_of_stored _ _ pf2 st1 _ hst
    · simp [Accessor.call, getOsMinorVersion, instance_of_some _ pf2 st1 s hs, hflag,
        Result.map]
  · exact call_of_stored _ t pf2 st1 _ (getOsBugFixVersion_stored t pf1 st st1 w hw)

/-- Witness for claim C1 (amended): `hasSse2()` succeeds on the example platform; the
next call, made while the platform would fail the query, still returns `true` and
leaves the state untouched. -/
theorem C1_cached_after_success_witness :
    Accessor.hasSse2.call .cocoa (examplePlatform (fun _ => legacyLeaves 0) 1) (freshState 1)
        = .ret (.bool true) exampleComputed ∧
    Accessor.hasSse2.call .cocoa mismatchPlatform exampleComputed
        = .ret (.bool true) exampleComputed :=
  ⟨rfl, C1_cached_after_success .hasSse2 .cocoa (examplePlatform (fun _ => legacyLeaves 0) 1)
    mismatchPlatform (freshState 1) exampleComputed (.bool true) rfl⟩

/-! ### C2: the affinity mask is restored -/

set_option maxRecDepth 100000 in
/-- Claim C2, as stated, fails: not every count and not every set of answers lets
`getNumCpus()` finish with the mask restored. With 97 logical units the scan indexes
outside `LogicalProcessorMap[96]`; with APIC id 48 and no extended leaves the tally
indexes outside `PhysProcIds[24]`; with a largest function number `0xFFFFFFFF` a leaf
loop of `cpuid` never ends: in these three runs there is no state after the call. And
on a platform that refuses the saved mask 15 the call returns 1 with the mask left at
8, the last mask it set. -/
theorem C2_mask_not_always_restored_counterexample :
    (getNumCpus .msw (examplePlatform (fun _ => legacyLeaves 0) 97) (freshState 1)).state?.map
        (fun s => s.processAffinityMask) = none ∧
    (getNumCpus .msw (examplePlatform (fun _ => legacyLeaves 48) 1) (freshState 1)).state?.map
        (fun s => s.processAffinityMask) = none ∧
    (getNumCpus .msw (examplePlatform (fun _ _ => ⟨0xFFFFFFFF, 0, 0, 0⟩) 1)
        (freshState 1)).state?.map (fun s => s.processAffinityMask) = none ∧
    (getNumCpus .msw refusingPlatform (freshState 15)).value? = some 1 ∧
    (getNumCpus .msw refusingPlatform (freshState 15)).state?.map
        (fun s => s.processAffinityMask) = some 8 :=
  ⟨by rfl, by rfl, by rfl, by rfl, by rfl⟩

/-- Claim C2, amended: on `CINDER_MSW`, for every state (hence every initial affinity
mask) whose mask the platform accepts back in `SetProcessAffinityMask`, every
logical-unit count of at most 96 (`MAX_NUMBER_OF_LOGICAL_PROCESSORS`), and every set of
`cpuid` answers for which the leaf loops terminate and every package id is below 24
(the size of `PhysProcIds`), `getNumCpus()` returns, and the process affinity mask
after the call is the mask in force before it. -/
theorem C2_affinity_mask_restored (pf : Platform) (st : State)
    (hacc : pf.acceptsMask st.processAffinityMask = true)
    (hcount : scanCount pf st ≤ (MAX_NUMBER_OF_LOGICAL_PROCESSORS : Int))
    (hterm : leafLoopsTerminate pf) (hids : packageIdsInTable pf) :
    ∃ v st1, getNumCpus .msw pf st = .ret v st1 ∧
      st1.processAffinityMask = st.processAffinityMask := by
  suffices h : ∃ v st1, getNumCpus .msw pf st = .ret v st1 by
    obtain ⟨v, st1, h1⟩ := h
    exact ⟨v, st1, h1, getNumCpus_mask .msw pf st st1 v hacc h1⟩
  have hc2 := scanCount_after_instance pf st ((instance_ .msw pf st).2.queries + 1)
  obtain ⟨st3, h3⟩ := getNumCores_msw_returns pf
    { (instance_ .msw pf st).2 with queries := (instance_ .msw pf st).2.queries + 1 }
  rw [hc2] at h3
  unfold getNumCpus
  simp only [GetProcessAffinityMask]
  split
  · rw [h3]
    simp only
    obtain ⟨n, st5, h5⟩ := getNumCpusScan_returns pf hterm hids (scanCount pf st)
      (instance_ .msw pf st3).1.mCPUID_EBX (instance_ .msw pf st).2.processAffinityMask
      (instance_ .msw pf st3).2 hcount
    rw [h5]
    exact ⟨_, _, rfl⟩
  · exact ⟨_, _, rfl⟩

/-- Witness for claim C2 (amended): four logical processors, initial mask 15. The scan
narrows the mask (to 8 while unit 3 is queried), `getNumCpus()` returns 1, and the
mask is 15 again afterwards. -/
theorem C2_affinity_mask_restored_witness :
    fourUnits.acceptsMask (freshState 15).processAffinityMask = true ∧
    scanCount fourUnits (freshState 15) ≤ (MAX_NUMBER_OF_LOGICAL_PROCESSORS : Int) ∧
    leafLoopsTerminate fourUnits ∧ packageIdsInTable fourUnits ∧
    (cpuid fourUnits 3 LOGICALPROCESSORDATA.zero (freshState 15)).map
        (fun r => r.2.processAffinityMask) = some 8 ∧
    (getNumCpus .msw fourUnits (freshState 15)).value? = some 1 ∧
    ∃ v st1, getNumCpus .msw fourUnits (freshState 15) = .ret v st1 ∧
      st1.processAffinityMask = (freshState 15).processAffinityMask :=
  ⟨rfl, by decide, fourUnits_terminate, packageIdsInTable_of_apic fourUnits fourUnits_apic,
    by rfl, by rfl,
    C2_affinity_mask_restored fourUnits (freshState 15) rfl (by decide) fourUnits_terminate
      (packageIdsInTable_of_apic fourUnits fourUnits_apic)⟩

/-! ### C3: `hasSse2` reads bit 26 of EDX -/

/-- Claim C3: on `CINDER_MSW`, for every platform (every leaf-1 answer), the first
`hasSse2()` of a process, made before any instance exists, returns exactly bit 26 of
register 3 of the leaf-1 answer, whatever the other bits are. -/
theorem C3_hasSse2_bit26 (pf : Platform) (mask queries : Nat) :
    (hasSse2 .msw pf ⟨none, mask, queries⟩).value? =
      some ((pf.cpuidInstr mask 1).r3.testBit 26) := by
  show some (decide ((pf.cpuidInstr mask 1).r3 &&& 2 ^ 26 ≠ 0)) = _
  rw [and_two_pow_ne_zero]

/-! ### C4: a failed query is retried -/

/-! ### Supporting lemmas for the retry after a failed query -/

/-- In a state whose cell is not `Computed`, `instance()` yields an instance whose flag
for the cell is false. -/
theorem instance_flag_false (a : Accessor) (t : Target) (pf : Platform) (st : State)
    (hcell : ∀ s, st.sInstance = some s → s.mCachedValues a.cell = false) :
    (instance_ t pf st).1.mCachedValues a.cell = false := by
  unfold instance_
  cases hs : st.sInstance with
  | some s => exact hcell s hs
  | none => cases t <;> rfl

/-- On `CINDER_COCOA`, when the cell is not `Computed` and the platform query fails, the
call throws. -/
theorem call_throws_of_query_error (a : Accessor) (pf : Platform) (st : State)
    (hcell : ∀ s, st.sInstance = some s → s.mCachedValues a.cell = false)
    (hq : a.cocoaQuery pf = .error ()) :
    ∃ st1, a.call .cocoa pf st = .threw st1 := by
  have hflag := instance_flag_false a .cocoa pf st hcell
  suffices h : (match a.call .cocoa pf st with
      | .threw _ => True
      | _ => False) by
    cases hr : a.call .cocoa pf st with
    | threw st1 => exact ⟨st1, rfl⟩
    | ret v st1 => rw [hr] at h; exact h.elim
    | undefined => rw [hr] at h; exact h.elim
  cases a <;> simp only [Accessor.cell] at hflag <;> simp only [Accessor.cocoaQuery] at hq
  · cases hg : getSysCtlValue sizeofInt pf "hw.optional.sse2" with
    | ok x => rw [hg] at hq; cases hq
    | error e =>
      simp [Accessor.call, hasSse2, hflag, sysctlInt, hg, Result.map]
  · cases hg : getSysCtlValue sizeofInt pf "hw.optional.sse3" with
    | ok x => rw [hg] at hq; cases hq
    | error e =>
      simp [Accessor.call, hasSse3, hflag, sysctlInt, hg, Result.map]
  · cases hg : getSysCtlValue sizeofInt pf "hw.optional.sse4_1" with
    | ok x => rw [hg] at hq; cases hq
    | error e =>
      simp [Accessor.call, hasSse4_1, hflag, sysctlInt, hg, Result.map]
  · cases hg : getSysCtlValue sizeofInt pf "hw.optional.sse4_2" with
    | ok x => rw [hg] at hq; cases hq
    | error e =>
      simp [Accessor.call, hasSse4_2, hflag, sysctlInt, hg, Result.map]
  · cases hg : getSysCtlValue sizeofInt pf "hw.optional.x86_64" with
    | ok x => rw [hg] at hq; cases hq
    | error e =>
      simp [Accessor.call, hasX86_64, hflag, sysctlInt, hg, Result.map]
  · cases hg : getSysCtlValue sizeofInt pf "hw.packages" with
    | ok x => rw [hg] at hq; cases hq
    | error e =>
      simp [Accessor.call, getNumCpus, hflag, sysctlInt, hg, Result.map]
  · cases hg : getSysCtlValue sizeofInt pf "hw.logicalcpu" with
    | ok x => rw [hg] at hq; cases hq
    | error e =>
      simp [Accessor.call, getNumCores, hflag, sysctlInt, hg, Result.map]
  · cases hg : pf.Gestalt .gestaltSystemVersionMajor with
    | noErr x => rw [hg] at hq; cases hq
    | error e =>
      simp [Accessor.call, getOsMajorVersion, hflag, gestaltInto, hg, Result.map]
  · cases hg : pf.Gestalt .gestaltSystemVersionMinor with
    | noErr x => rw [hg] at hq; cases hq
    | error e =>
      simp [Accessor.call, getOsMinorVersion, hflag, gestaltInto, hg, Result.map]
  · cases hg : pf.Gestalt .gestaltSystemVersionBugFix with
    | noErr x => rw [hg] at hq; cases hq
    | error e =>
      simp [Accessor.call, getOsBugFixVersion, hflag, gestaltInto, hg, Result.map]

/-- A call that throws leaves the cell `Uncomputed`, and from that state a call whose
query succeeds returns the queried value and leaves the cell `Computed`. -/
theorem retry_after_throw (a : Accessor) (t : Target) (pf : Platform) (st st1 : State)
    (h : a.call t pf st = .threw st1) :
    a.uncomputed st1 ∧
    ∀ (pf2 : Platform) (v : Value), a.cocoaQuery pf2 = .ok v →
      ∃ st2, a.call t pf2 st1 = .ret v st2 ∧ a.computed st2 := by
  obtain ⟨rfl, hu⟩ := call_threw a t pf st st1 h
  refine ⟨hu, ?_⟩
  intro pf2 v hq
  exact (Result.returnsWith_iff _ _ _).1 (call_of_uncomputed a pf2 st1 v hu hq)

/-- Claim C4: for every accessor, on `CINDER_COCOA` (the only configuration whose
queries can fail), for every state in which the accessor's cell is not `Computed` and
every platform on which the accessor's query fails, the call throws
`SystemExcFailedQuery` and leaves the cell `Uncomputed` (the flag is still false); and
from the state it leaves, for every platform on which the query succeeds with `v`,
the next call returns `v` and leaves the cell `Computed`. -/
theorem C4_failed_query_retried (a : Accessor) (pf : Platform) (st : State)
    (hcell : ∀ s, st.sInstance = some s → s.mCachedValues a.cell = false)
    (hq : a.cocoaQuery pf = .error ()) :
    ∃ st1, a.call .cocoa pf st = .threw st1 ∧ a.uncomputed st1 ∧
      ∀ (pf2 : Platform) (v : Value), a.cocoaQuery pf2 = .ok v →
        ∃ st2, a.call .cocoa pf2 st1 = .ret v st2 ∧ a.computed st2 := by
  obtain ⟨st1, h1⟩ := call_throws_of_query_error a pf st hcell hq
  obtain ⟨hu, hr⟩ := retry_after_throw a .cocoa pf st st1 h1
  exact ⟨st1, h1, hu, hr⟩

/-- Witness for claim C4: from the fresh state, the query of `getOsMajorVersion()` fails
on a platform whose `Gestalt` reports an error (after storing 7 through the pointer);
from a state whose instance exists with every flag false, the query of `hasSse2()`
fails on a platform that reports width 8 for the key. -/
theorem C4_failed_query_retried_witness :
    (∀ s, (freshState 1).sInstance = some s →
      s.mCachedValues Accessor.getOsMajorVersion.cell = false) ∧
    Accessor.getOsMajorVersion.cocoaQuery gestaltErrorPlatform = .error () ∧
    (∀ s, (State.mk (some exampleSystem) 1 1).sInstance = some s →
      s.mCachedValues Accessor.hasSse2.cell = false) ∧
    Accessor.hasSse2.cocoaQuery mismatchPlatform = .error () ∧
    (∃ st1, Accessor.getOsMajorVersion.call .cocoa gestaltErrorPlatform (freshState 1)
        = .threw st1 ∧ Accessor.getOsMajorVersion.uncomputed st1 ∧
      ∀ (pf2 : Platform) (v : Value), Accessor.getOsMajorVersion.cocoaQuery pf2 = .ok v →
        ∃ st2, Accessor.getOsMajorVersion.call .cocoa pf2 st1 = .ret v st2 ∧
          Accessor.getOsMajorVersion.computed st2) ∧
    (∃ st1, Accessor.hasSse2.call .cocoa mismatchPlatform (State.mk (some exampleSystem) 1 1)
        = .threw st1 ∧ Accessor.hasSse2.uncomputed st1 ∧
      ∀ (pf2 : Platform) (v : Value), Accessor.hasSse2.cocoaQuery pf2 = .ok v →
        ∃ st2, Accessor.hasSse2.call .cocoa pf2 st1 = .ret v st2 ∧
          Accessor.hasSse2.computed st2) :=
  ⟨(fun _ h => nomatch h), rfl, (fun s h => by cases h; rfl), rfl,
    C4_failed_query_retried .getOsMajorVersion gestaltErrorPlatform (freshState 1)
      (fun _ h => nomatch h) rfl,
    C4_failed_query_retried .hasSse2 mismatchPlatform (State.mk (some exampleSystem) 1 1)
      (fun s h => by cases h; rfl) rfl⟩

/-! ### C5: outcomes of `getSysCtlValue` -/

/-- Claim C5, as stated, fails: when the platform reports an error for the width
query (the key is not found), `getSysCtlValue<int>` does not throw; it returns 0. -/
theorem C5_key_not_found_counterexample :
    getSysCtlValue sizeofInt
      { examplePlatform (fun _ => legacyLeaves 0) 1 with sysctlLen := fun _ => none }
      "hw.optional.sse4_2" = .ok 0 := rfl

/-- Claim C5, amended: for every width, platform and key, `getSysCtlValue<T>( key )`
throws `SystemExcFailedQuery` exactly when the width query succeeds and either the
reported width differs from `sizeof(T)` or the value query reports an error; it
returns `v` exactly when the width query reports an error and `v` is `T(0)`, or both
queries succeed, the width is `sizeof(T)` and `v` is the value read. -/
theorem C5_getSysCtlValue_outcomes (sizeofT : Nat) (pf : Platform) (key : String) :
    (getSysCtlValue sizeofT pf key = .error () ↔
      ∃ len, pf.sysctlLen key = some len ∧ (len ≠ sizeofT ∨ pf.sysctlVal key = none)) ∧
    (∀ v, getSysCtlValue sizeofT pf key = .ok v ↔
      (pf.sysctlLen key = none ∧ v = 0) ∨
        (pf.sysctlLen key = some sizeofT ∧ pf.sysctlVal key = some v)) := by
  unfold getSysCtlValue
  cases hl : pf.sysctlLen key with
  | none => simp; intro v; exact eq_comm
  | some len =>
    by_cases hsz : sizeofT = len
    · subst hsz
      cases hv : pf.sysctlVal key with
      | none => simp
      | some val => simp
    · have hsz2 : len ≠ sizeofT := fun h => hsz h.symm
      simp [hsz, hsz2]

/-! ### C6: the physical processor count -/

/-- Claim C6 holds of the intent but not of the code: one logical processor whose
leaf-1 answer carries APIC id 48 and which has no extended leaves gets `nProcId` 24;
`PhysProcIds[24]++` then indexes outside `int PhysProcIds[24]`, so the counting loops,
and with them `getNumCpus()`, have no defined result, where the claim asks for 1. -/
theorem C6_package_id_outside_table :
    (cpuid (examplePlatform (fun _ => legacyLeaves 48) 1) 0 LOGICALPROCESSORDATA.zero
        (freshState 1)).map (fun r => r.1.nProcId) = some 24 ∧
    countPhysProcIds [{ LOGICALPROCESSORDATA.zero with nLocalApicId := 48, nProcId := 24 }] 1
      = none ∧
    (getNumCpus .msw (examplePlatform (fun _ => legacyLeaves 48) 1) (freshState 1)).value?
      = none :=
  ⟨by rfl, by rfl, by rfl⟩

/-! ### C7: the mask built by `lockToLogicalProcessor` -/

/-- Claim C7, as stated, fails at index 32 (which `getNumCpus` can pass: the index of
its last `lockToLogicalProcessor` call is an APIC id, 0..255): the `DWORD` `pmm` wraps
to 0. A platform that accepts every mask ends with mask 0, one that refuses the empty
mask keeps the previous mask `0xFFFFFFFF`; neither is the single bit 32. -/
theorem C7_lock_index_32_counterexample :
    pmmLoop 32 1 = 0 ∧
    (lockToLogicalProcessor (examplePlatform (fun _ => legacyLeaves 0) 33) 32
      (freshState 0xFFFFFFFF)).processAffinityMask = 0 ∧
    (lockToLogicalProcessor
      { examplePlatform (fun _ => legacyLeaves 0) 33 with acceptsMask := fun m => decide (m ≠ 0) }
      32 (freshState 0xFFFFFFFF)).processAffinityMask = 0xFFFFFFFF ∧
    (0 : Nat) ≠ 2 ^ 32 ∧ (0xFFFFFFFF : Nat) ≠ 2 ^ 32 := by
  refine ⟨?_, ?_, ?_, ?_, ?_⟩ <;> decide

/-- Claim C7, amended: for every index `n`, the loop-built `pmm` equals `2 ^ n` when
`n` is below 32 (the width of the `DWORD` `pmm`) and wraps to 0 when `n` is 32 or
more; `lockToLogicalProcessor( n )` leaves the process affinity mask equal to that
`pmm` when the platform accepts it, and unchanged when the platform refuses it. -/
theorem C7_lock_mask (pf : Platform) (st : State) (n : Nat) :
    pmmLoop n 1 = (if n < 32 then 2 ^ n else 0) ∧
    (lockToLogicalProcessor pf n st).processAffinityMask =
      if pf.acceptsMask (if n < 32 then 2 ^ n else 0) then (if n < 32 then 2 ^ n else 0)
      else st.processAffinityMask := by
  have hp : pmmLoop n 1 = (if n < 32 then 2 ^ n else 0) := by
    by_cases hn : n < 32
    · rw [if_pos hn]; exact pmmLoop_one n hn
    · rw [if_neg hn, pmmLoop_eq n 1 (by unfold UINT_MOD; norm_num), one_mul]
      apply Nat.mod_eq_zero_of_dvd
      unfold UINT_MOD
      exact Nat.pow_dvd_pow 2 (by omega)
  refine ⟨hp, ?_⟩
  simp only [lockToLogicalProcessor, SetProcessAffinityMask, GetProcessAffinityMask, hp]

/-- Witness for claim C7 (amended): index 5 gives mask 32; index 40 gives `pmm` 0, which
a platform refusing the empty mask leaves without effect. -/
theorem C7_lock_mask_witness :
    pmmLoop 5 1 = 32 ∧
    (lockToLogicalProcessor (examplePlatform (fun _ => legacyLeaves 0) 8) 5
        (freshState 0xFF)).processAffinityMask = 32 ∧
    pmmLoop 40 1 = 0 ∧
    (lockToLogicalProcessor
      { examplePlatform (fun _ => legacyLeaves 0) 8 with acceptsMask := fun m => decide (m ≠ 0) }
      40 (freshState 0xFF)).processAffinityMask = 0xFF :=
  ⟨(C7_lock_mask (examplePlatform (fun _ => legacyLeaves 0) 8) (freshState 0xFF) 5).1,
    (C7_lock_mask (examplePlatform (fun _ => legacyLeaves 0) 8) (freshState 0xFF) 5).2,
    (C7_lock_mask (examplePlatform (fun _ => legacyLeaves 0) 8) (freshState 0xFF) 40).1,
    (C7_lock_mask
      { examplePlatform (fun _ => legacyLeaves 0) 8 with acceptsMask := fun m => decide (m ≠ 0) }
      (freshState 0xFF) 40).2⟩

/-! ### C8: the package identifier -/

/-- Claim C8, as stated, fails for width 0: a processor without leaf `0x80000008`
(width 0) and APIC id 2 gets `nProcId` 1, where shifting by the width would give 2. -/
theorem C8_packageId_width_zero_counterexample :
    (cpuid (examplePlatform (fun _ => legacyLeaves 2) 1) 0 LOGICALPROCESSORDATA.zero
        (freshState 1)).map (fun r => (r.1.nLocalApicId, r.1.nApicIdCoreIdSize, r.1.nProcId))
      = some (2, 0, 1) ∧ 2 >>> 0 ≠ 1 := by
  constructor
  · rfl
  · decide

/-- Claim C8, amended: whenever the leaf loops of `cpuid` terminate (no largest
function number is `0xFFFFFFFF`) and the record comes in with APIC id in 0..255 and
width in 0..15 (as the zeroed record does), `cpuid` returns a record with APIC id in
0..255 and width in 0..15 whose `nProcId` is the APIC id shifted right by the width
when the width is nonzero, and by 1 when it is zero. -/
theorem C8_packageId_shift (pf : Platform) (whichlp : Nat) (p0 : LOGICALPROCESSORDATA)
    (st : State) (hs : largestStandard pf whichlp st ≠ UINT_MOD - 1)
    (he : largestExtended pf whichlp st ≠ UINT_MOD - 1)
    (ha : p0.nLocalApicId ≤ 255) (hw : p0.nApicIdCoreIdSize ≤ 15) :
    ∃ p st1, cpuid pf whichlp p0 st = some (p, st1) ∧
      p.nLocalApicId ≤ 255 ∧ p.nApicIdCoreIdSize ≤ 15 ∧
      p.nProcId =
        p.nLocalApicId >>> (if p.nApicIdCoreIdSize = 0 then 1 else p.nApicIdCoreIdSize) := by
  obtain ⟨q, st1, hq, hc⟩ := cpuid_returns pf whichlp p0 st hs he
  have hqa := cpuidQuery_apic pf whichlp p0 q st st1 ha hq
  have hqw := cpuidQuery_widthOnly pf whichlp p0 q st st1 hw hq
  exact ⟨cpuidDerive q, st1, hc, hqa, hqw, cpuidDerive_nProcId q hqa hqw⟩

/-- Witness for claim C8 (amended): APIC id 6 with width 2 gives `nProcId` 1. -/
theorem C8_packageId_shift_witness :
    largestStandard (examplePlatform (fun _ => topologyLeaves 6 2 3) 1) 0 (freshState 1)
        ≠ UINT_MOD - 1 ∧
    largestExtended (examplePlatform (fun _ => topologyLeaves 6 2 3) 1) 0 (freshState 1)
        ≠ UINT_MOD - 1 ∧
    (cpuid (examplePlatform (fun _ => topologyLeaves 6 2 3) 1) 0
        LOGICALPROCESSORDATA.zero (freshState 1)).map (fun r => r.1.nProcId) = some 1 ∧
    ∃ p st1, cpuid (examplePlatform (fun _ => topologyLeaves 6 2 3) 1) 0
        LOGICALPROCESSORDATA.zero (freshState 1) = some (p, st1) ∧
      p.nLocalApicId ≤ 255 ∧ p.nApicIdCoreIdSize ≤ 15 ∧
      p.nProcId =
        p.nLocalApicId >>> (if p.nApicIdCoreIdSize = 0 then 1 else p.nApicIdCoreIdSize) :=
  ⟨by decide, by decide, rfl,
    C8_packageId_shift (examplePlatform (fun _ => topologyLeaves 6 2 3) 1) 0
      LOGICALPROCESSORDATA.zero (freshState 1) (by decide) (by decide) (by decide) (by decide)⟩

/-! ### C9: `nMNC` -/

/-- Claim C9: whenever the leaf loops of `cpuid` terminate and the record comes in
with width in 0..15 and `nNC` in 0..255, `cpuid` returns a record with width in 0..15
and `nNC` in 0..255 whose `nMNC` is `2 ^ width` when the width is nonzero and
`nNC + 1` when it is zero; and when leaf `0x80000008` is not supported the width and
`nNC` are those the record came in with (zero for the zeroed record `getNumCpus`
passes, hence the legacy formula). -/
theorem C9_maxCoresPerPackage (pf : Platform) (whichlp : Nat) (p0 : LOGICALPROCESSORDATA)
    (st : State) (hs : largestStandard pf whichlp st ≠ UINT_MOD - 1)
    (he : largestExtended pf whichlp st ≠ UINT_MOD - 1)
    (hw : p0.nApicIdCoreIdSize ≤ 15) (hn : p0.nNC ≤ 255) :
    ∃ p st1, cpuid pf whichlp p0 st = some (p, st1) ∧
      p.nApicIdCoreIdSize ≤ 15 ∧ p.nNC ≤ 255 ∧
      p.nMNC = (if p.nApicIdCoreIdSize ≠ 0 then 2 ^ p.nApicIdCoreIdSize else p.nNC + 1) ∧
      (largestExtended pf whichlp st < 0x80000008 →
        p.nApicIdCoreIdSize = p0.nApicIdCoreIdSize ∧ p.nNC = p0.nNC) := by
  obtain ⟨q, st1, hq, hc⟩ := cpuid_returns pf whichlp p0 st hs he
  have hqw := cpuidQuery_width pf whichlp p0 q st st1 hw hn hq
  exact ⟨cpuidDerive q, st1, hc, hqw.1, hqw.2, cpuidDerive_nMNC q,
    fun hu => cpuidQuery_unsupported pf whichlp p0 q st st1 hu hq⟩

/-- Witness for claim C9: width 1 gives `nMNC` 2; and a processor without extended
leaves, `nNC` 0, gives `nMNC` 1. -/
theorem C9_maxCoresPerPackage_witness :
    (cpuid (examplePlatform (fun _ => topologyLeaves 0 1 1) 1) 0
        LOGICALPROCESSORDATA.zero (freshState 1)).map (fun r => r.1.nMNC) = some 2 ∧
    (cpuid (examplePlatform (fun _ => legacyLeaves 0) 1) 0
        LOGICALPROCESSORDATA.zero (freshState 1)).map (fun r => r.1.nMNC) = some 1 ∧
    ∃ p st1, cpuid (examplePlatform (fun _ => topologyLeaves 0 1 1) 1) 0
        LOGICALPROCESSORDATA.zero (freshState 1) = some (p, st1) ∧
      p.nApicIdCoreIdSize ≤ 15 ∧ p.nNC ≤ 255 ∧
      p.nMNC = (if p.nApicIdCoreIdSize ≠ 0 then 2 ^ p.nApicIdCoreIdSize else p.nNC + 1) ∧
      (largestExtended (examplePlatform (fun _ => topologyLeaves 0 1 1) 1) 0 (freshState 1)
          < 0x80000008 →
        p.nApicIdCoreIdSize = LOGICALPROCESSORDATA.zero.nApicIdCoreIdSize ∧
          p.nNC = LOGICALPROCESSORDATA.zero.nNC) :=
  ⟨rfl, rfl,
    C9_maxCoresPerPackage (examplePlatform (fun _ => topologyLeaves 0 1 1) 1) 0
      LOGICALPROCESSORDATA.zero (freshState 1) (by decide) (by decide) (by decide) (by decide)⟩

/-! ### C10: the core-id mask -/

/-- Claim C10: whenever the leaf loops of `cpuid` terminate and the record comes in
with width in 0..15, `cpuid` returns a record with width `w` in 0..15 for which the
mask it built is `2 ^ w - 1` (the low `w` bits) when `w` is nonzero and 1 when `w` is
zero, and whose `nCoreId` is the APIC id ANDed with that mask. -/
theorem C10_coreIdMask (pf : Platform) (whichlp : Nat) (p0 : LOGICALPROCESSORDATA)
    (st : State) (hs : largestStandard pf whichlp st ≠ UINT_MOD - 1)
    (he : largestExtended pf whichlp st ≠ UINT_MOD - 1)
    (hw : p0.nApicIdCoreIdSize ≤ 15) :
    ∃ p st1, cpuid pf whichlp p0 st = some (p, st1) ∧
      p.nApicIdCoreIdSize ≤ 15 ∧
      coreIdMask p.nApicIdCoreIdSize =
        (if p.nApicIdCoreIdSize = 0 then 1 else 2 ^ p.nApicIdCoreIdSize - 1) ∧
      p.nCoreId =
        p.nLocalApicId &&& (if p.nApicIdCoreIdSize = 0 then 1 else 2 ^ p.nApicIdCoreIdSize - 1) := by
  obtain ⟨q, st1, hq, hc⟩ := cpuid_returns pf whichlp p0 st hs he
  have hqw := cpuidQuery_widthOnly pf whichlp p0 q st st1 hw hq
  have h32 : q.nApicIdCoreIdSize ≤ 32 := Nat.le_trans hqw (by decide)
  have hm := coreIdMask_eq q.nApicIdCoreIdSize h32
  refine ⟨cpuidDerive q, st1, hc, hqw, hm, ?_⟩
  rw [cpuidDerive_nCoreId q, hm]
  rfl

/-- Witness for claim C10: APIC id 6 with width 2 gives mask 3 and `nCoreId` 2; APIC
id 3 without extended leaves gives mask 1 and `nCoreId` 1. -/
theorem C10_coreIdMask_witness :
    (cpuid (examplePlatform (fun _ => topologyLeaves 6 2 3) 1) 0
        LOGICALPROCESSORDATA.zero (freshState 1)).map (fun r => r.1.nCoreId) = some 2 ∧
    (cpuid (examplePlatform (fun _ => legacyLeaves 3) 1) 0
        LOGICALPROCESSORDATA.zero (freshState 1)).map (fun r => r.1.nCoreId) = some 1 ∧
    coreIdMask 2 = 3 ∧ coreIdMask 0 = 1 ∧
    ∃ p st1, cpuid (examplePlatform (fun _ => topologyLeaves 6 2 3) 1) 0
        LOGICALPROCESSORDATA.zero (freshState 1) = some (p, st1) ∧
      p.nApicIdCoreIdSize ≤ 15 ∧
      coreIdMask p.nApicIdCoreIdSize =
        (if p.nApicIdCoreIdSize = 0 then 1 else 2 ^ p.nApicIdCoreIdSize - 1) ∧
      p.nCoreId =
        p.nLocalApicId &&& (if p.nApicIdCoreIdSize = 0 then 1 else 2 ^ p.nApicIdCoreIdSize - 1) :=
  ⟨rfl, rfl, rfl, rfl,
    C10_coreIdMask (examplePlatform (fun _ => topologyLeaves 6 2 3) 1) 0
      LOGICALPROCESSORDATA.zero (freshState 1) (by decide) (by decide) (by decide)⟩

/-! ### Supporting lemmas for the threads-per-core computation -/

/-- The query part of `cpuid` keeps `nNC` within 0..255. -/
theorem cpuidQuery_nNCOnly (pf : Platform) (whichlp : Nat) (p q : LOGICALPROCESSORDATA)
    (st st1 : State) (hn : p.nNC ≤ 255)
    (h : cpuidQuery pf whichlp p st = some (q, st1)) : q.nNC ≤ 255 := by
  refine cpuidQuery_inv pf whichlp p q st st1 (fun r => r.nNC ≤ 255) ?_ ?_ ?_ ?_ hn h
  · intro r v hr; exact hr
  · intro r v hr; exact hr
  · intro i info r hr
    have := stdBody_width i info r
    simp only [this.2]; exact hr
  · intro i info r _ hr
    unfold extBody
    split
    · exact and_le_mask _ _
    · exact hr

/-- The query part of `cpuid` never assigns `CmpLegacy`. -/
theorem cpuidQuery_CmpLegacy (pf : Platform) (whichlp : Nat) (p q : LOGICALPROCESSORDATA)
    (st st1 : State) (h : cpuidQuery pf whichlp p st = some (q, st1)) :
    q.CmpLegacy = p.CmpLegacy := by
  refine cpuidQuery_inv pf whichlp p q st st1 (fun r => r.CmpLegacy = p.CmpLegacy)
    ?_ ?_ ?_ ?_ rfl h
  · intro r v hr; exact hr
  · intro r v hr; exact hr
  · intro i info r hr
    unfold stdBody
    split <;> exact hr
  · intro i info r _ hr
    unfold extBody
    split <;> exact hr

/-- The derivation part leaves the flags, the sibling count and `nNC` alone, and sets
`nCPUCoresperProcessor` to `nNC + 1`. -/
theorem cpuidDerive_threadFields (q : LOGICALPROCESSORDATA) :
    (cpuidDerive q).HTT = q.HTT ∧ (cpuidDerive q).CmpLegacy = q.CmpLegacy ∧
    (cpuidDerive q).nLogicalProcessorCount = q.nLogicalProcessorCount ∧
    (cpuidDerive q).nNC = q.nNC ∧ (cpuidDerive q).nCPUCoresperProcessor = q.nNC + 1 :=
  ⟨rfl, rfl, rfl, rfl, rfl⟩

/-- The value of `nThreadsperCPUCore` after the derivation part. -/
theorem cpuidDerive_nThreadsperCPUCore (q : LOGICALPROCESSORDATA) :
    (cpuidDerive q).nThreadsperCPUCore =
      if q.HTT = false then 1
      else if q.CmpLegacy = true then 1
      else q.nLogicalProcessorCount / (q.nNC + 1) := rfl

/-! ### C11: threads per core -/

/-- Claim C11: whenever the leaf loops of `cpuid` terminate and the record comes in
with `nNC` in 0..255, `cpuid` returns a record whose `nThreadsperCPUCore` is 1 when
`HTT` is false, 1 when `HTT` is true and `CmpLegacy` is set, and otherwise the integer
quotient `nLogicalProcessorCount / (nNC + 1)`; `CmpLegacy` is the flag the record came
in with, since `cpuid` never assigns it. -/
theorem C11_threadsPerCore (pf : Platform) (whichlp : Nat) (p0 : LOGICALPROCESSORDATA)
    (st : State) (hs : largestStandard pf whichlp st ≠ UINT_MOD - 1)
    (he : largestExtended pf whichlp st ≠ UINT_MOD - 1) (hn : p0.nNC ≤ 255) :
    ∃ p st1, cpuid pf whichlp p0 st = some (p, st1) ∧
      p.CmpLegacy = p0.CmpLegacy ∧ p.nNC ≤ 255 ∧
      p.nThreadsperCPUCore =
        (if p.HTT = false then 1
         else if p.CmpLegacy = true then 1
         else p.nLogicalProcessorCount / (p.nNC + 1)) := by
  obtain ⟨q, st1, hq, hc⟩ := cpuid_returns pf whichlp p0 st hs he
  exact ⟨cpuidDerive q, st1, hc, cpuidQuery_CmpLegacy pf whichlp p0 q st st1 hq,
    cpuidQuery_nNCOnly pf whichlp p0 q st st1 hn hq, cpuidDerive_nThreadsperCPUCore q⟩

/-- Witness for claim C11: hyper-threading flag set, sibling count 4, `nNC` 1, legacy
flag clear gives 2 threads per core; a processor with the flag clear gives 1. -/
theorem C11_threadsPerCore_witness :
    (cpuid (examplePlatform (fun _ => topologyLeaves 0 1 1) 1) 0 LOGICALPROCESSORDATA.zero
        (freshState 1)).map
      (fun r => (r.1.HTT, r.1.CmpLegacy, r.1.nLogicalProcessorCount, r.1.nNC,
        r.1.nThreadsperCPUCore)) = some (true, false, 4, 1, 2) ∧
    (cpuid (examplePlatform (fun _ => legacyLeaves 0) 1) 0 LOGICALPROCESSORDATA.zero
        (freshState 1)).map (fun r => (r.1.HTT, r.1.nThreadsperCPUCore)) = some (false, 1) ∧
    ∃ p st1, cpuid (examplePlatform (fun _ => topologyLeaves 0 1 1) 1) 0
        LOGICALPROCESSORDATA.zero (freshState 1) = some (p, st1) ∧
      p.CmpLegacy = LOGICALPROCESSORDATA.zero.CmpLegacy ∧ p.nNC ≤ 255 ∧
      p.nThreadsperCPUCore =
        (if p.HTT = false then 1
         else if p.CmpLegacy = true then 1
         else p.nLogicalProcessorCount / (p.nNC + 1)) :=
  ⟨rfl, rfl,
    C11_threadsPerCore (examplePlatform (fun _ => topologyLeaves 0 1 1) 1) 0
      LOGICALPROCESSORDATA.zero (freshState 1) (by decide) (by decide) (by decide)⟩

/-! ### C12: the divisor, and a sibling count of zero -/

/-- Claim C12, as stated, fails in its second part: a leaf-1 answer with the
hyper-threading flag set and a logical processor count of 0 (legacy flag clear, as in
the zeroed record) gives divisor 1 and `nThreadsperCPUCore` 0, the quotient `0 / 1`,
where the claim asks for 1. -/
theorem C12_zero_count_counterexample :
    (cpuid (examplePlatform (fun _ => zeroCountLeaves) 1) 0 LOGICALPROCESSORDATA.zero
        (freshState 1)).map
      (fun r => (r.1.HTT, r.1.CmpLegacy, r.1.nLogicalProcessorCount,
        r.1.nCPUCoresperProcessor, r.1.nThreadsperCPUCore)) = some (true, false, 0, 1, 0) ∧
    (0 : Nat) ≠ 1 :=
  ⟨rfl, by decide⟩

/-- Claim C12, amended: whenever the leaf loops of `cpuid` terminate and the record
comes in with `nNC` in 0..255, `cpuid` returns a record whose divisor
`nCPUCoresperProcessor` is `nNC + 1`, between 1 and 256, so the quotient never divides
by zero; and when `nLogicalProcessorCount` is zero, `nThreadsperCPUCore` is 0 if `HTT`
is true and `CmpLegacy` is clear (the quotient of 0), and 1 otherwise. -/
theorem C12_divisor_positive (pf : Platform) (whichlp : Nat) (p0 : LOGICALPROCESSORDATA)
    (st : State) (hs : largestStandard pf whichlp st ≠ UINT_MOD - 1)
    (he : largestExtended pf whichlp st ≠ UINT_MOD - 1) (hn : p0.nNC ≤ 255) :
    ∃ p st1, cpuid pf whichlp p0 st = some (p, st1) ∧
      p.nCPUCoresperProcessor = p.nNC + 1 ∧
      1 ≤ p.nCPUCoresperProcessor ∧ p.nCPUCoresperProcessor ≤ 256 ∧
      (p.nLogicalProcessorCount = 0 →
        p.nThreadsperCPUCore = (if p.HTT = true ∧ p.CmpLegacy = false then 0 else 1)) := by
  obtain ⟨q, st1, hq, hc⟩ := cpuid_returns pf whichlp p0 st hs he
  have hqn := cpuidQuery_nNCOnly pf whichlp p0 q st st1 hn hq
  obtain ⟨hH, hC, hL, hN, hD⟩ := cpuidDerive_threadFields q
  refine ⟨cpuidDerive q, st1, hc, by rw [hD, hN], by rw [hD]; omega, by rw [hD]; omega, ?_⟩
  intro hz
  rw [hL] at hz
  rw [cpuidDerive_nThreadsperCPUCore q, hH, hC, hz, Nat.zero_div]
  cases q.HTT <;> cases q.CmpLegacy <;> simp

/-- Witness for claim C12 (amended): a processor without extended leaves, flag clear
and count 0, has divisor 1 and 1 thread per core. -/
theorem C12_divisor_positive_witness :
    (cpuid (examplePlatform (fun _ => legacyLeaves 0) 1) 0 LOGICALPROCESSORDATA.zero
        (freshState 1)).map
      (fun r => (r.1.HTT, r.1.nLogicalProcessorCount, r.1.nCPUCoresperProcessor,
        r.1.nThreadsperCPUCore)) = some (false, 0, 1, 1) ∧
    ∃ p st1, cpuid (examplePlatform (fun _ => legacyLeaves 0) 1) 0
        LOGICALPROCESSORDATA.zero (freshState 1) = some (p, st1) ∧
      p.nCPUCoresperProcessor = p.nNC + 1 ∧
      1 ≤ p.nCPUCoresperProcessor ∧ p.nCPUCoresperProcessor ≤ 256 ∧
      (p.nLogicalProcessorCount = 0 →
        p.nThreadsperCPUCore = (if p.HTT = true ∧ p.CmpLegacy = false then 0 else 1)) :=
  ⟨rfl,
    C12_divisor_positive (examplePlatform (fun _ => legacyLeaves 0) 1) 0
      LOGICALPROCESSORDATA.zero (freshState 1) (by decide) (by decide) (by decide)⟩

end Cinder
